import Mathlib

/-!
Verification development for the cfbd-etl seeder pipeline.

The relational store is modelled as insertion-ordered association lists from
natural keys to row values.  Each `Insert*` method of `internal/db/db.go` is
embedded as a pure function from its input slice to the batch of rows it
writes and the resulting table state; GORM `clause.OnConflict` with
`DoUpdates`/`UpdateAll` is modelled as last-write-wins upsert on the declared
key columns, `DoNothing` without a unique target as plain append, and a bare
`CreateInBatches` as an insert that fails on a key collision.
-/

namespace CfbdEtl

/-- One GORM upsert of a single row into an insertion-ordered table:
on a natural-key collision the non-key columns (the whole value) are
overwritten in place, otherwise the row is appended. -/
def upsertRow {K V : Type} [DecidableEq K] (k : K) (v : V) :
    List (K × V) → List (K × V)
  | [] => [(k, v)]
  | (k0, v0) :: rest =>
    if k0 = k then (k, v) :: rest else (k0, v0) :: upsertRow k v rest

/-- Sequential upsert of a whole batch (CreateInBatches with an OnConflict
DoUpdates clause): later rows in the batch win on a key collision. -/
def upsertBatch {K V : Type} [DecidableEq K]
    (tbl : List (K × V)) (batch : List (K × V)) : List (K × V) :=
  batch.foldl (fun t kv => upsertRow kv.1 kv.2 t) tbl

/-- Key lookup in a table. -/
def lookupRow {K V : Type} [DecidableEq K] (k : K) :
    List (K × V) → Option V
  | [] => none
  | (k0, v0) :: rest => if k0 = k then some v0 else lookupRow k rest

/-- The keys of a table, in row order. -/
def rowKeys {K V : Type} (t : List (K × V)) : List K :=
  t.map Prod.fst

/-- Model of Go strings.TrimSpace: drop whitespace from both ends.  Written
over the character list so that it evaluates inside the kernel. -/
def trimSpace (s : String) : String :=
  ⟨(((s.data.dropWhile Char.isWhitespace).reverse).dropWhile
      Char.isWhitespace).reverse⟩

theorem lookupRow_upsertRow_self {K V : Type} [DecidableEq K]
    (k : K) (v : V) (t : List (K × V)) :
    lookupRow k (upsertRow k v t) = some v := by
  induction t with
  | nil => simp [upsertRow, lookupRow]
  | cons hd tl ih =>
    obtain ⟨k0, v0⟩ := hd
    by_cases h : k0 = k
    · simp [upsertRow, h, lookupRow]
    · simp [upsertRow, h, lookupRow, ih]

theorem upsertRow_of_lookupRow_eq {K V : Type} [DecidableEq K]
    {k : K} {v : V} {t : List (K × V)} (h : lookupRow k t = some v) :
    upsertRow k v t = t := by
  induction t with
  | nil => simp [lookupRow] at h
  | cons hd tl ih =>
    obtain ⟨k0, v0⟩ := hd
    by_cases hk : k0 = k
    · subst hk
      simp [lookupRow] at h
      simp [upsertRow, h]
    · simp [lookupRow, hk] at h
      simp [upsertRow, hk, ih h]

theorem upsertRow_upsertRow {K V : Type} [DecidableEq K]
    (k : K) (v1 v2 : V) (t : List (K × V)) :
    upsertRow k v2 (upsertRow k v1 t) = upsertRow k v2 t := by
  induction t with
  | nil => simp [upsertRow]
  | cons hd tl ih =>
    obtain ⟨k0, v0⟩ := hd
    by_cases h : k0 = k
    · simp [upsertRow, h]
    · simp [upsertRow, h, ih]

theorem mem_rowKeys_upsertRow_self {K V : Type} [DecidableEq K]
    (k : K) (v : V) (t : List (K × V)) :
    k ∈ rowKeys (upsertRow k v t) := by
  induction t with
  | nil => simp [upsertRow, rowKeys]
  | cons hd tl ih =>
    obtain ⟨k0, v0⟩ := hd
    by_cases h : k0 = k
    · simp [upsertRow, h, rowKeys]
    · simp only [upsertRow, h, if_false, rowKeys, List.map_cons, List.mem_cons]
      exact Or.inr ih

theorem mem_rowKeys_upsertRow_mono {K V : Type} [DecidableEq K]
    {k : K} {t : List (K × V)} (k1 : K) (v1 : V) (h : k ∈ rowKeys t) :
    k ∈ rowKeys (upsertRow k1 v1 t) := by
  induction t with
  | nil => simp [rowKeys] at h
  | cons hd tl ih =>
    obtain ⟨k0, v0⟩ := hd
    simp only [rowKeys, List.map_cons, List.mem_cons] at h
    by_cases hk : k0 = k1
    · subst hk
      have hrw : upsertRow k0 v1 ((k0, v0) :: tl) = (k0, v1) :: tl := by
        simp [upsertRow]
      rw [hrw]
      simpa [rowKeys] using h
    · simp only [upsertRow, hk, if_false, rowKeys, List.map_cons, List.mem_cons]
      rcases h with h | h
      · exact Or.inl h
      · exact Or.inr (ih h)

theorem mem_rowKeys_upsertBatch_mono {K V : Type} [DecidableEq K]
    {k : K} (b : List (K × V)) {t : List (K × V)} (h : k ∈ rowKeys t) :
    k ∈ rowKeys (upsertBatch t b) := by
  induction b generalizing t with
  | nil => simpa [upsertBatch] using h
  | cons hd tl ih =>
    simp only [upsertBatch, List.foldl_cons] at *
    exact ih (mem_rowKeys_upsertRow_mono hd.1 hd.2 h)

theorem lookupRow_upsertRow_ne {K V : Type} [DecidableEq K]
    {k k1 : K} (hne : k1 ≠ k) (v1 : V) (t : List (K × V)) :
    lookupRow k (upsertRow k1 v1 t) = lookupRow k t := by
  induction t with
  | nil => simp [upsertRow, lookupRow, hne]
  | cons hd tl ih =>
    obtain ⟨k0, v0⟩ := hd
    by_cases h : k0 = k1
    · subst h
      simp [upsertRow, lookupRow, hne]
    · by_cases hk : k0 = k
      · simp [upsertRow, h, lookupRow, hk, Ne.symm hne]
      · simp [upsertRow, h, lookupRow, hk, ih]

theorem lookupRow_upsertBatch_not_mem {K V : Type} [DecidableEq K]
    {k : K} {b : List (K × V)} (h : k ∉ rowKeys b) (t : List (K × V)) :
    lookupRow k (upsertBatch t b) = lookupRow k t := by
  induction b generalizing t with
  | nil => simp [upsertBatch]
  | cons hd tl ih =>
    simp only [rowKeys, List.map_cons, List.mem_cons, not_or] at h
    simp only [upsertBatch, List.foldl_cons]
    have := ih (by simpa [rowKeys] using h.2) (t := upsertRow hd.1 hd.2 t)
    simp only [upsertBatch] at this
    rw [this, lookupRow_upsertRow_ne (fun he => h.1 he.symm)]

theorem upsertRow_comm_of_mem {K V : Type} [DecidableEq K]
    {k1 k2 : K} (hne : k1 ≠ k2) (v1 v2 : V) (t : List (K × V))
    (hmem : k1 ∈ rowKeys t) :
    upsertRow k1 v1 (upsertRow k2 v2 t) = upsertRow k2 v2 (upsertRow k1 v1 t) := by
  induction t with
  | nil => simp [rowKeys] at hmem
  | cons hd tl ih =>
    obtain ⟨k0, v0⟩ := hd
    simp only [rowKeys, List.map_cons, List.mem_cons] at hmem
    by_cases h1 : k0 = k1
    · subst h1
      simp [upsertRow, hne, Ne.symm hne]
    · by_cases h2 : k0 = k2
      · subst h2
        simp [upsertRow, h1, Ne.symm hne, hne]
      · rcases hmem with hmem | hmem
        · exact absurd hmem.symm h1
        · simp [upsertRow, h1, h2, ih hmem]

theorem upsertBatch_cons {K V : Type} [DecidableEq K]
    (t : List (K × V)) (k : K) (v : V) (b : List (K × V)) :
    upsertBatch t ((k, v) :: b) = upsertBatch (upsertRow k v t) b :=
  rfl

theorem upsertBatch_absorb {K V : Type} [DecidableEq K]
    {k : K} (v : V) {b : List (K × V)} (hb : k ∈ rowKeys b)
    {t : List (K × V)} (ht : k ∈ rowKeys t) :
    upsertBatch (upsertRow k v t) b = upsertBatch t b := by
  induction b generalizing t v with
  | nil => simp [rowKeys] at hb
  | cons hd tl ih =>
    obtain ⟨k1, v1⟩ := hd
    simp only [rowKeys, List.map_cons, List.mem_cons] at hb
    by_cases hk : k1 = k
    · subst hk
      rw [upsertBatch_cons, upsertBatch_cons, upsertRow_upsertRow]
    · rcases hb with hb | hb
      · exact absurd hb.symm hk
      · rw [upsertBatch_cons, upsertBatch_cons,
          ← upsertRow_comm_of_mem (Ne.symm hk) v v1 t ht]
        exact ih v hb (mem_rowKeys_upsertRow_mono k1 v1 ht)

/-- Replaying an identical batch over a table that already absorbed it is the
identity: the central last-write-wins idempotence fact. -/
theorem upsertBatch_replay {K V : Type} [DecidableEq K]
    (t : List (K × V)) (b : List (K × V)) :
    upsertBatch (upsertBatch t b) b = upsertBatch t b := by
  induction b generalizing t with
  | nil => simp [upsertBatch]
  | cons hd tl ih =>
    obtain ⟨k, v⟩ := hd
    simp only [upsertBatch_cons]
    by_cases hk : k ∈ rowKeys tl
    · rw [upsertBatch_absorb v hk
        (mem_rowKeys_upsertBatch_mono tl (mem_rowKeys_upsertRow_self k v t))]
      exact ih (upsertRow k v t)
    · have hlk : lookupRow k (upsertBatch (upsertRow k v t) tl) = some v := by
        rw [lookupRow_upsertBatch_not_mem hk, lookupRow_upsertRow_self]
      rw [upsertRow_of_lookupRow_eq hlk]
      exact ih (upsertRow k v t)

theorem upsertRow_append_of_not_mem {K V : Type} [DecidableEq K]
    {k : K} (v : V) {t : List (K × V)} (h : k ∉ rowKeys t) :
    upsertRow k v t = t ++ [(k, v)] := by
  induction t with
  | nil => simp [upsertRow]
  | cons hd tl ih =>
    obtain ⟨k0, v0⟩ := hd
    simp only [rowKeys, List.map_cons, List.mem_cons, not_or] at h
    have hne : ¬ k0 = k := fun he => h.1 he.symm
    simp [upsertRow, hne, ih h.2]

theorem rowKeys_upsertRow_of_mem {K V : Type} [DecidableEq K]
    {k : K} (v : V) {t : List (K × V)} (h : k ∈ rowKeys t) :
    rowKeys (upsertRow k v t) = rowKeys t := by
  induction t with
  | nil => simp [rowKeys] at h
  | cons hd tl ih =>
    obtain ⟨k0, v0⟩ := hd
    by_cases hk : k0 = k
    · simp [upsertRow, hk, rowKeys]
    · simp only [rowKeys, List.map_cons, List.mem_cons] at h
      rcases h with h | h
      · exact absurd h.symm hk
      · have h2 := ih h
        simp only [rowKeys] at h2
        simp [upsertRow, hk, rowKeys, h2]

theorem rowKeys_nodup_upsertRow {K V : Type} [DecidableEq K]
    (k : K) (v : V) {t : List (K × V)} (h : (rowKeys t).Nodup) :
    (rowKeys (upsertRow k v t)).Nodup := by
  by_cases hm : k ∈ rowKeys t
  · rw [rowKeys_upsertRow_of_mem v hm]
    exact h
  · rw [upsertRow_append_of_not_mem v hm]
    simp only [rowKeys, List.map_append, List.map_cons, List.map_nil]
    refine List.Nodup.append h (by simp) ?_
    intro a ha hb
    simp only [List.mem_cons, List.not_mem_nil, or_false] at hb
    subst hb
    exact hm ha

/-- Opaque stand-in for a float64 column payload; no claim computes with
floating-point values, they are only carried between fetch and write. -/
abbrev F64 := Int

/-- Opaque stand-in for a timestamp column payload. -/
abbrev Timestamp := Int

/-- Upstream cfbd.Conference record (the getter fields used by the writer). -/
structure ConferenceSrc where
  id : Int
  name : String
  shortName : String
  abbreviation : String
  classification : String
deriving DecidableEq, Repr

/-- Store row for cfbd.conferences. -/
structure Conference where
  id : Int
  name : String
  shortName : String
  abbreviation : String
  classification : String
deriving DecidableEq, Repr

/-- Model rows built by InsertConferences: nil entries and entries whose id
getter returns zero are skipped, string columns are trimmed. -/
def conferenceModels (conferences : List (Option ConferenceSrc)) :
    List Conference :=
  conferences.filterMap fun oc =>
    match oc with
    | none => none
    | some c =>
      if c.id = 0 then none
      else
        some { id := c.id, name := trimSpace c.name, shortName := trimSpace c.shortName,
               abbreviation := trimSpace c.abbreviation,
               classification := trimSpace c.classification }

/-- InsertConferences: first component is the batch handed to CreateInBatches
(empty when the function returns early without writing), second is the table
after the OnConflict(id) DoUpdates(non-key columns) upsert. -/
def insertConferences (tbl : List (Int × Conference))
    (conferences : List (Option ConferenceSrc)) :
    List Conference × List (Int × Conference) :=
  if conferences.length = 0 then ([], tbl)
  else
    let models := conferenceModels conferences
    if models.length = 0 then ([], tbl)
    else (models, upsertBatch tbl (models.map fun m => (m.id, m)))

/-- Upstream cfbd.PlayType record. -/
structure PlayTypeSrc where
  id : Int
  text : String
  abbreviation : String
deriving DecidableEq, Repr

/-- Store row for cfbd.play_types. -/
structure PlayType where
  id : Int
  text : String
  abbreviation : String
deriving DecidableEq, Repr

/-- Model rows built by InsertPlayTypes: nil entries and zero ids skipped. -/
def playTypeModels (playTypes : List (Option PlayTypeSrc)) : List PlayType :=
  playTypes.filterMap fun opt =>
    match opt with
    | none => none
    | some pt =>
      if pt.id = 0 then none
      else some { id := pt.id, text := trimSpace pt.text,
                  abbreviation := trimSpace pt.abbreviation }

/-- InsertPlayTypes: OnConflict(id) DoUpdates(text, abbreviation). -/
def insertPlayTypes (tbl : List (Int × PlayType))
    (playTypes : List (Option PlayTypeSrc)) :
    List PlayType × List (Int × PlayType) :=
  if playTypes.length = 0 then ([], tbl)
  else
    let models := playTypeModels playTypes
    if models.length = 0 then ([], tbl)
    else (models, upsertBatch tbl (models.map fun m => (m.id, m)))

/-- The normalize-and-dedupe loop of InsertPlayStatTypes: trim each name,
skip empties, skip names already seen (first occurrence kept). -/
def cleanNamesAux (uniq : List String) : List String → List String
  | [] => []
  | n :: rest =>
    let s := trimSpace n
    if s = "" then cleanNamesAux uniq rest
    else if uniq.contains s then cleanNamesAux uniq rest
    else s :: cleanNamesAux (s :: uniq) rest

def cleanNames (names : List String) : List String :=
  cleanNamesAux [] names

/-- InsertPlayStatTypes: ids are assigned 1..N over the cleaned batch and the
rows are written by a bare CreateInBatches with no OnConflict clause, so a
key collision with an existing row is a uniqueness violation that fails the
whole write (the code comments acknowledge this). -/
def insertPlayStatTypes (tbl : List (Int × String)) (names : List String) :
    Except String (List (Int × String) × List (Int × String)) :=
  let clean := cleanNames names
  if clean.length = 0 then .ok ([], tbl)
  else
    let models := clean.enum.map fun p => ((Int.ofNat p.1) + 1, p.2)
    if models.any fun m => (lookupRow m.1 tbl).isSome then
      .error "could not insert play stat types"
    else .ok (models, tbl ++ models)

/-- Upstream cfbd.DraftTeam record. -/
structure DraftTeamSrc where
  location : String
  nickname : String
  displayName : String
  logo : String
deriving DecidableEq, Repr

/-- Store row for draft_teams: the primary key is an auto-increment serial
chosen by the store, not an upstream identifier. -/
structure DraftTeamRow where
  id : Int
  location : String
  nickname : String
  displayName : String
  logo : String
deriving DecidableEq, Repr

/-- Model values built by InsertDraftTeams: nil entries and entries whose
trimmed location is empty are skipped. -/
def draftTeamModels (teams : List (Option DraftTeamSrc)) : List DraftTeamSrc :=
  teams.filterMap fun ot =>
    match ot with
    | none => none
    | some t =>
      if trimSpace t.location = "" then none
      else
        some { location := trimSpace t.location, nickname := trimSpace t.nickname,
               displayName := trimSpace t.displayName, logo := trimSpace t.logo }

/-- InsertDraftTeams: ON CONFLICT DO NOTHING with no conflict target on a
table whose only key is the auto-increment serial and which carries no unique
natural-key constraint, so every model row is appended as a fresh row. -/
def insertDraftTeams (tbl : List DraftTeamRow)
    (teams : List (Option DraftTeamSrc)) :
    List DraftTeamSrc × List DraftTeamRow :=
  if teams.length = 0 then ([], tbl)
  else
    let models := draftTeamModels teams
    if models.length = 0 then ([], tbl)
    else
      (models, tbl ++ models.enum.map fun p =>
        { id := (Int.ofNat (tbl.length + p.1)) + 1, location := p.2.location,
          nickname := p.2.nickname, displayName := p.2.displayName,
          logo := p.2.logo })

/-- Store row for advanced_box_scores: keyed by the upstream game id, the
payload column holds the JSON-marshalled response (opaque here; marshalling
a fetched response never fails in the model). -/
structure AdvancedBoxScoreRow where
  gameID : Int
  payload : String
deriving DecidableEq, Repr

/-- Model rows built by InsertAdvancedBoxScores from the accumulated
(game id, score) mapping: only nil values are skipped, the game id key is
written unchecked. -/
def advancedBoxScoreModels (scores : List (Int × Option String)) :
    List AdvancedBoxScoreRow :=
  scores.filterMap fun p =>
    match p.2 with
    | none => none
    | some s => some { gameID := p.1, payload := s }

/-- InsertAdvancedBoxScores: OnConflict UpdateAll keyed on the game_id
primary key. -/
def insertAdvancedBoxScores (tbl : List (Int × AdvancedBoxScoreRow))
    (scores : List (Int × Option String)) :
    List AdvancedBoxScoreRow × List (Int × AdvancedBoxScoreRow) :=
  if scores.length = 0 then ([], tbl)
  else
    let models := advancedBoxScoreModels scores
    (models, upsertBatch tbl (models.map fun m => (m.gameID, m)))

/-- Upstream cfbd.PlayWinProbability record. -/
structure WinProbSrc where
  gameId : Int
  playId : String
  playText : String
  homeId : Int
  home : String
  awayId : Int
  away : String
  spread : F64
  homeBall : Bool
  homeScore : Int
  awayScore : Int
  yardLine : Int
  down : Int
  distance : Int
  homeWinProbability : F64
  playNumber : Int
deriving DecidableEq, Repr

/-- Store row for play_win_probability, keyed by (game_id, play_id). -/
structure PlayWinProbabilityRow where
  gameID : Int
  playID : String
  playText : String
  homeID : Int
  home : String
  awayID : Int
  away : String
  spread : F64
  homeBall : Bool
  homeScore : Int
  awayScore : Int
  yardLine : Int
  down : Int
  distance : Int
  homeWinProbability : F64
  playNumber : Int
deriving DecidableEq, Repr

/-- The per-record transform of InsertPlayWinProbability. -/
def mkWinProb (p : WinProbSrc) : PlayWinProbabilityRow :=
  { gameID := p.gameId, playID := p.playId, playText := p.playText,
    homeID := p.homeId, home := p.home, awayID := p.awayId,
    away := p.away, spread := p.spread, homeBall := p.homeBall,
    homeScore := p.homeScore, awayScore := p.awayScore,
    yardLine := p.yardLine, down := p.down, distance := p.distance,
    homeWinProbability := p.homeWinProbability,
    playNumber := p.playNumber }

/-- Model rows built by InsertPlayWinProbability: only nil entries skipped. -/
def playWinProbabilityModels (plays : List (Option WinProbSrc)) :
    List PlayWinProbabilityRow :=
  plays.filterMap fun op =>
    match op with
    | none => none
    | some p => some (mkWinProb p)

/-- InsertPlayWinProbability: OnConflict UpdateAll keyed on the composite
(game_id, play_id) primary key. -/
def insertPlayWinProbability (tbl : List ((Int × String) × PlayWinProbabilityRow))
    (plays : List (Option WinProbSrc)) :
    List PlayWinProbabilityRow × List ((Int × String) × PlayWinProbabilityRow) :=
  if plays.length = 0 then ([], tbl)
  else
    let models := playWinProbabilityModels plays
    (models, upsertBatch tbl (models.map fun m => ((m.gameID, m.playID), m)))

/-- The team location getter payload (only its venue id is read). -/
structure TeamLocationSrc where
  id : Int
deriving DecidableEq, Repr

/-- Upstream cfbd.Team record. -/
structure TeamSrc where
  id : Int
  school : String
  mascot : String
  abbreviation : String
  alternateNames : List String
  conference : String
  division : String
  classification : String
  color : String
  alternateColor : String
  logos : List String
  twitter : String
  location : Option TeamLocationSrc
deriving DecidableEq, Repr

/-- Store row for cfbd.teams. -/
structure Team where
  id : Int
  school : String
  mascot : String
  abbreviation : String
  alternateNames : List String
  conference : String
  division : String
  classification : String
  color : String
  alternateColor : String
  logos : List String
  twitter : String
  venueID : Option Int
deriving DecidableEq, Repr

/-- The per-record transform of InsertTeams (the body placed into the byID
map): a venue id of zero is treated as absent, string columns are trimmed. -/
def mkTeam (t : TeamSrc) : Team :=
  { id := t.id, school := trimSpace t.school, mascot := trimSpace t.mascot,
    abbreviation := trimSpace t.abbreviation, alternateNames := t.alternateNames,
    conference := trimSpace t.conference, division := trimSpace t.division,
    classification := trimSpace t.classification, color := trimSpace t.color,
    alternateColor := trimSpace t.alternateColor, logos := t.logos,
    twitter := trimSpace t.twitter,
    venueID :=
      match t.location with
      | some loc => if loc.id ≠ 0 then some loc.id else none
      | none => none }

/-- One step of the byID de-duplication loop of InsertTeams: a nil entry or
zero id is skipped, otherwise the transformed row is stored under its id,
overwriting an earlier occurrence of the same id. -/
def teamsByIdStep (m : List (Int × Team)) (ot : Option TeamSrc) :
    List (Int × Team) :=
  match ot with
  | none => m
  | some t => if t.id = 0 then m else upsertRow t.id (mkTeam t) m

/-- The byID de-duplication map of InsertTeams. -/
def teamsById (teams : List (Option TeamSrc)) : List (Int × Team) :=
  teams.foldl teamsByIdStep []

/-- Model rows built by InsertTeams: the de-duplicated map values with rows
whose (trimmed) school is empty dropped. -/
def teamModels (teams : List (Option TeamSrc)) : List Team :=
  ((teamsById teams).map Prod.snd).filter fun m => m.school ≠ ""

/-- InsertTeams: OnConflict(id) DoUpdates(all non-key columns). -/
def insertTeams (tbl : List (Int × Team)) (teams : List (Option TeamSrc)) :
    List Team × List (Int × Team) :=
  if teams.length = 0 then ([], tbl)
  else
    let byID := teamsById teams
    if byID.length = 0 then ([], tbl)
    else
      let models := teamModels teams
      if models.length = 0 then ([], tbl)
      else (models, upsertBatch tbl (models.map fun m => (m.id, m)))

/-- Upstream cfbd.Game record (getter fields plus optional-scalar pointer
fields, which are already Option-shaped here). -/
structure GameSrc where
  id : Int
  season : Int
  week : Int
  seasonType : String
  startDate : Option Timestamp
  startTimeTBD : Bool
  completed : Bool
  neutralSite : Bool
  conferenceGame : Bool
  attendance : Option Int
  venueId : Option Int
  venue : String
  homeId : Option Int
  homeTeam : String
  homeConference : String
  homeClassification : String
  homePoints : Option Int
  homeLineScores : List Int
  homePostgameWinProbability : Option F64
  homePregameElo : Option Int
  homePostgameElo : Option Int
  awayId : Option Int
  awayTeam : String
  awayConference : String
  awayClassification : String
  awayPoints : Option Int
  awayLineScores : List Int
  awayPostgameWinProbability : Option F64
  awayPregameElo : Option Int
  awayPostgameElo : Option Int
  excitementIndex : Option F64
  highlights : String
  notes : String
deriving DecidableEq, Repr

/-- Store row for cfbd.games. -/
structure Game where
  id : Int
  season : Int
  week : Int
  seasonType : String
  startDate : Option Timestamp
  startTimeTBD : Bool
  completed : Bool
  neutralSite : Bool
  conferenceGame : Bool
  attendance : Option Int
  venueID : Option Int
  venue : String
  homeID : Option Int
  homeTeam : String
  homeConference : String
  homeClassification : String
  homePoints : Option Int
  homeLineScores : List Int
  homePostWinProbability : Option F64
  homePregameElo : Option Int
  homePostgameElo : Option Int
  awayID : Option Int
  awayTeam : String
  awayConference : String
  awayClassification : String
  awayPoints : Option Int
  awayLineScores : List Int
  awayPostWinProbability : Option F64
  awayPregameElo : Option Int
  awayPostgameElo : Option Int
  excitementIndex : Option F64
  highlights : String
  notes : String
deriving DecidableEq, Repr

/-- Model rows built by InsertGames: nil entries and zero-id entries are
skipped; optional pointer scalars pass through, strings are trimmed. -/
def gameModels (games : List (Option GameSrc)) : List Game :=
  games.filterMap fun og =>
    match og with
    | none => none
    | some g =>
      if g.id = 0 then none
      else
        some { id := g.id, season := g.season, week := g.week,
               seasonType := trimSpace g.seasonType, startDate := g.startDate,
               startTimeTBD := g.startTimeTBD, completed := g.completed,
               neutralSite := g.neutralSite,
               conferenceGame := g.conferenceGame,
               attendance := g.attendance, venueID := g.venueId,
               venue := trimSpace g.venue, homeID := g.homeId,
               homeTeam := trimSpace g.homeTeam,
               homeConference := trimSpace g.homeConference,
               homeClassification := trimSpace g.homeClassification,
               homePoints := g.homePoints,
               homeLineScores := g.homeLineScores,
               homePostWinProbability := g.homePostgameWinProbability,
               homePregameElo := g.homePregameElo,
               homePostgameElo := g.homePostgameElo, awayID := g.awayId,
               awayTeam := trimSpace g.awayTeam,
               awayConference := trimSpace g.awayConference,
               awayClassification := trimSpace g.awayClassification,
               awayPoints := g.awayPoints,
               awayLineScores := g.awayLineScores,
               awayPostWinProbability := g.awayPostgameWinProbability,
               awayPregameElo := g.awayPregameElo,
               awayPostgameElo := g.awayPostgameElo,
               excitementIndex := g.excitementIndex,
               highlights := trimSpace g.highlights, notes := trimSpace g.notes }

/-- InsertGames: OnConflict(id) DoUpdates(all non-key columns). -/
def insertGames (tbl : List (Int × Game)) (games : List (Option GameSrc)) :
    List Game × List (Int × Game) :=
  if games.length = 0 then ([], tbl)
  else
    let models := gameModels games
    if models.length = 0 then ([], tbl)
    else (models, upsertBatch tbl (models.map fun m => (m.id, m)))

/-- Upstream clock payload with optional minutes and seconds. -/
structure ClockSrc where
  minutes : Option Int
  seconds : Option Int
deriving DecidableEq, Repr

/-- Upstream cfbd.Play record. -/
structure PlaySrc where
  id : String
  driveId : String
  gameId : Int
  driveNumber : Option Int
  playNumber : Option Int
  offense : String
  offenseConference : String
  offenseScore : Int
  defense : String
  home : String
  away : String
  defenseConference : String
  defenseScore : Int
  period : Int
  clock : Option ClockSrc
  offenseTimeouts : Option Int
  defenseTimeouts : Option Int
  yardline : Int
  yardsToGoal : Int
  down : Int
  distance : Int
  yardsGained : Int
  scoring : Bool
  playType : String
  playText : String
  ppa : Option F64
  wallclock : String
deriving DecidableEq, Repr

/-- Store row for cfbd.plays, keyed by the upstream string id. -/
structure Play where
  id : String
  driveID : String
  gameID : Int
  driveNumber : Option Int
  playNumber : Option Int
  offense : String
  offenseConference : String
  offenseScore : Int
  defense : String
  home : String
  away : String
  defenseConference : String
  defenseScore : Int
  period : Int
  clockMinutes : Option Int
  clockSeconds : Option Int
  offenseTimeouts : Option Int
  defenseTimeouts : Option Int
  yardline : Int
  yardsToGoal : Int
  down : Int
  distance : Int
  yardsGained : Int
  scoring : Bool
  playType : String
  playText : String
  ppa : Option F64
  wallclock : String
deriving DecidableEq, Repr

/-- Model rows built by InsertPlays: nil entries and entries whose string id
is empty are skipped; clock fields flatten through the nested option. -/
def playModels (plays : List (Option PlaySrc)) : List Play :=
  plays.filterMap fun op =>
    match op with
    | none => none
    | some p =>
      if p.id = "" then none
      else
        some { id := p.id, driveID := trimSpace p.driveId, gameID := p.gameId,
               driveNumber := p.driveNumber, playNumber := p.playNumber,
               offense := trimSpace p.offense,
               offenseConference := trimSpace p.offenseConference,
               offenseScore := p.offenseScore, defense := trimSpace p.defense,
               home := trimSpace p.home, away := trimSpace p.away,
               defenseConference := trimSpace p.defenseConference,
               defenseScore := p.defenseScore, period := p.period,
               clockMinutes :=
                 match p.clock with
                 | some c => c.minutes
                 | none => none,
               clockSeconds :=
                 match p.clock with
                 | some c => c.seconds
                 | none => none,
               offenseTimeouts := p.offenseTimeouts,
               defenseTimeouts := p.defenseTimeouts,
               yardline := p.yardline, yardsToGoal := p.yardsToGoal,
               down := p.down, distance := p.distance,
               yardsGained := p.yardsGained, scoring := p.scoring,
               playType := trimSpace p.playType, playText := trimSpace p.playText,
               ppa := p.ppa, wallclock := trimSpace p.wallclock }

/-- InsertPlays: OnConflict(id) DoUpdates(all non-key columns). -/
def insertPlays (tbl : List (String × Play)) (plays : List (Option PlaySrc)) :
    List Play × List (String × Play) :=
  if plays.length = 0 then ([], tbl)
  else
    let models := playModels plays
    if models.length = 0 then ([], tbl)
    else (models, upsertBatch tbl (models.map fun m => (m.id, m)))

/-- Upstream cfbd.CalendarWeek record. -/
structure CalendarWeekSrc where
  season : Int
  week : Int
  seasonType : String
  startDate : Option Timestamp
  endDate : Option Timestamp
  firstGameStart : Option Timestamp
  lastGameStart : Option Timestamp
deriving DecidableEq, Repr

/-- Store row for cfbd.calendar_weeks, keyed by (season, week, season_type). -/
structure CalendarWeek where
  season : Int
  week : Int
  seasonType : String
  startDate : Option Timestamp
  endDate : Option Timestamp
  firstGameStart : Option Timestamp
  lastGameStart : Option Timestamp
deriving DecidableEq, Repr

/-- Model rows built by InsertCalendarWeeks: nil entries and entries with a
zero season, zero week or empty trimmed season type are skipped. -/
def calendarWeekModels (weeks : List (Option CalendarWeekSrc)) :
    List CalendarWeek :=
  weeks.filterMap fun ow =>
    match ow with
    | none => none
    | some w =>
      if w.season = 0 ∨ w.week = 0 ∨ trimSpace w.seasonType = "" then none
      else
        some { season := w.season, week := w.week,
               seasonType := trimSpace w.seasonType, startDate := w.startDate,
               endDate := w.endDate, firstGameStart := w.firstGameStart,
               lastGameStart := w.lastGameStart }

/-- InsertCalendarWeeks: OnConflict(season, week, season_type) DoUpdates on
the date columns. -/
def insertCalendarWeeks (tbl : List ((Int × Int × String) × CalendarWeek))
    (weeks : List (Option CalendarWeekSrc)) :
    List CalendarWeek × List ((Int × Int × String) × CalendarWeek) :=
  if weeks.length = 0 then ([], tbl)
  else
    let models := calendarWeekModels weeks
    if models.length = 0 then ([], tbl)
    else
      (models,
       upsertBatch tbl (models.map fun m => ((m.season, m.week, m.seasonType), m)))

/-- Store introspection state consulted by the initialization sentinel.  The
manualConstraints component records manually-applied constraints present in
the store; it exists so that the specified third sentinel signal can be
stated, and the embedded isInitialized never reads it (the source function
issues no constraint query). -/
structure StoreMeta where
  schemaExists : Bool
  tables : List String
  manualConstraints : List String
deriving DecidableEq, Repr

/-- The sentinel table list of IsInitialized (db.go). -/
def requiredTables : List String :=
  ["venues", "conferences", "teams", "games", "drives", "plays",
   "play_types", "play_stat_types", "play_stats", "game_team_stats",
   "game_player_stats", "recruits", "team_sp", "poll_weeks", "betting_games",
   "draft_picks", "coaches", "int32_lists"]

/-- IsInitialized from db.go: (1) does the cfbd schema exist, (2) does the
count of sentinel tables present equal the full sentinel list; there is no
further check. -/
def isInitialized (st : StoreMeta) : Bool :=
  if !st.schemaExists then false
  else
    let foundCount := (requiredTables.filter fun t => st.tables.contains t).length
    if foundCount ≠ requiredTables.length then false
    else true

/-- The twenty AutoMigrate batches of Initialize (db.go), in declaration
order; each batch creates the tables of the listed models.  The final batch
is the misc group whose int32_lists table doubles as the completion marker
consulted by the sentinel. -/
def migrationSteps : List (List String) :=
  [ ["venues", "conferences", "teams"],
    ["games"],
    ["matchups", "matchup_games"],
    ["calendar_weeks", "scoreboards", "team_records"],
    ["play_types", "play_stat_types", "drives", "plays", "play_stats"],
    ["game_team_stats", "game_team_stats_teams", "game_team_stats_team_stats",
     "game_player_stats", "game_player_stats_teams",
     "game_player_stat_categories", "game_player_stat_types",
     "game_player_stat_players"],
    ["live_games", "live_game_teams", "live_game_drives", "live_game_plays"],
    ["game_media", "game_weather"],
    ["play_win_probability", "pregame_win_probabilities", "field_goal_eps"],
    ["predicted_points_values", "team_season_predicted_points_added",
     "team_game_predicted_points_added", "player_game_predicted_points_added",
     "player_season_predicted_points_added"],
    ["advanced_box_scores"],
    ["roster_players", "player_search_results", "player_usage_splits",
     "player_usages", "returning_productions", "player_transfers",
     "player_stats", "team_stats"],
    ["recruit_hometown_infos", "recruits", "team_recruiting_rankings",
     "aggregated_team_recruitings"],
    ["team_sp", "conference_sp", "team_srs", "team_elo", "team_fpi"],
    ["poll_weeks", "polls", "poll_ranks"],
    ["betting_games", "game_lines"],
    ["draft_teams", "draft_positions", "draft_pick_hometown_infos",
     "draft_picks"],
    ["coaches", "coach_seasons"],
    ["adjusted_team_metrics", "player_weighted_epas", "kicker_paars",
     "team_ats", "team_talents", "game_havoc_stat_sides", "game_havoc_stats",
     "advanced_rate_metrics", "advanced_havocs", "advanced_field_positions",
     "advanced_season_stat_sides", "advanced_season_stats",
     "advanced_game_stat_sides", "advanced_game_stats"],
    ["user_info", "int32_lists"] ]

/-- Store state after the schema step of Initialize and the first k
migration batches; k = migrationSteps.length is a complete, uninterrupted
run.  Initialize applies no manual constraint in any step. -/
def initializeUpTo (k : Nat) : StoreMeta :=
  { schemaExists := true, tables := (migrationSteps.take k).flatten,
    manualConstraints := [] }

/-- A store with nothing in it. -/
def emptyStore : StoreMeta :=
  { schemaExists := false, tables := [], manualConstraints := [] }

/-- Modelled from the spec: the third sentinel signal the specification
describes, presence of a manually-applied constraint that automated schema
setup cannot express; the source tree contains no corresponding query. -/
def hasManualConstraint (st : StoreMeta) : Bool :=
  !st.manualConstraints.isEmpty

/-- Outcome-labelled task descriptor of a phase: the Go method name run by
errgroup Go, and the error (if any) the task returns. -/
structure TaskSpec where
  name : String
  result : Option String
deriving DecidableEq, Repr

/-- Scheduler trace event: the task at index idx of phase p began executing. -/
inductive PEvent
  | start (phase : Nat) (idx : Nat) (name : String)
deriving DecidableEq, Repr

/-- errgroup Wait over one phase: every task of the phase is started, and
the first error among the task results (if any) is reported. -/
def phaseFirstErr (ts : List TaskSpec) : Option String :=
  ts.findSome? fun t => t.result

/-- The start events of one phase (all tasks are launched). -/
def phaseEvents (p : Nat) (ts : List TaskSpec) : List PEvent :=
  ts.enum.map fun q => .start p q.1 q.2.name

/-- The phase loop of main: run a phase, exit with code 1 when its Wait
reports an error, otherwise continue with the next phase; exit 0 when all
phases completed. -/
def runPhases : Nat → List (List TaskSpec) → List PEvent × Nat
  | _, [] => ([], 0)
  | p, ph :: rest =>
    let evs := phaseEvents p ph
    match phaseFirstErr ph with
    | some _ => (evs, 1)
    | none =>
      let r := runPhases (p + 1) rest
      (evs ++ r.1, r.2)

def runPipeline (phases : List (List TaskSpec)) : List PEvent × Nat :=
  runPhases 0 phases

/-- The six phases of cmd/seeder/main.go with their task method names, in
declaration order; outcome gives each named task its result. -/
def seederPhases (outcome : String → Option String) : List (List TaskSpec) :=
  [ ["SeedVenues", "SeedPlayTypes", "SeedStatTypes", "SeedDraftTeams",
     "SeedConferences", "SeedFieldGoalEP", "SeedDraftPositions"],
    ["SeedTeams"],
    ["SeedCalendar", "SeedGames"],
    ["SeedDrives", "SeedPlays", "SeedPlayStats", "SeedGameTeamStats",
     "SeedGamePlayerStats", "SeedWinProbability", "SeedAdvancedBoxScore",
     "SeedGameWeather", "SeedGameMedia", "SeedBettingLines"],
    ["SeedTeamRecords", "SeedTeamTalentComposite", "SeedTeamATS",
     "SeedTeamSPPlus", "SeedConferenceSPPlus", "SeedTeamSRSRankings",
     "SeedTeamEloRankings", "SeedTeamFPIRankings", "SeedWepaTeamSeason",
     "SeedWepaPassing", "SeedWepaRushing", "SeedWepaKicking",
     "SeedReturningProduction", "SeedPortalPlayers", "SeedSeasonPlayerStats",
     "SeedSeasonTeamStats", "SeedRankings"],
    ["SeedRecruits", "SeedRecruitingRankings", "SeedDraftPicks"]
  ].map fun ph => ph.map fun n => { name := n, result := outcome n }

/-- Accumulator state of the SeedAdvancedBoxScore fan-out: the shared
mutex-guarded batch map from game id to fetched score, and the flushes
written to the store so far. -/
structure AccState where
  batch : List (Int × String)
  flushes : List (List (Int × String))
deriving DecidableEq, Repr

/-- One accumulator add performed by a fan-out worker (the code after a
successful fetch): insert into the shared map; when the map size reaches the
threshold, swap the full map out, clear the shared one, and write the
swapped-out batch. -/
def accAdd (threshold : Nat) (st : AccState) (gid : Int) (score : String) :
    AccState :=
  let b := upsertRow gid score st.batch
  if threshold ≤ b.length then
    { batch := [], flushes := st.flushes ++ [b] }
  else
    { batch := b, flushes := st.flushes }

/-- The fan-out adds in completion order (the concurrent workers serialize
on the mutex; this lists their critical sections in the order they won it). -/
def accRun (threshold : Nat) (items : List (Int × String)) : AccState :=
  items.foldl (fun st p => accAdd threshold st p.1 p.2) { batch := [], flushes := [] }

/-- The final drain after group.Wait: flush the remainder when nonempty. -/
def accDrain (st : AccState) : List (List (Int × String)) :=
  if 0 < st.batch.length then st.flushes ++ [st.batch] else st.flushes

/-- Mutex and store micro-operations of one SeedAdvancedBoxScore worker. -/
inductive AccOp
  | lockMutex
  | insertKey (gid : Int)
  | swapAndClear
  | unlockMutex
  | storeWrite
deriving DecidableEq, Repr

/-- The exact operation sequence of the worker body for one fetched result,
read off the source block: lock, insert into the shared map, and on crossing
the flush threshold swap the map out (clearing the shared one), unlock, and
only then perform the store write; below the threshold just unlock. -/
def workerCriticalSection (crossed : Bool) (gid : Int) : List AccOp :=
  if crossed then
    [.lockMutex, .insertKey gid, .swapAndClear, .unlockMutex, .storeWrite]
  else
    [.lockMutex, .insertKey gid, .unlockMutex]

/-- Lock depth in force when the operation at index i executes. -/
def lockDepthAt (ops : List AccOp) (i : Nat) : Nat :=
  ((ops.take i).filter (fun o => o == .lockMutex)).length -
    ((ops.take i).filter (fun o => o == .unlockMutex)).length

/-- Is the mutex held when the operation at index i executes. -/
def heldDuring (ops : List AccOp) (i : Nat) : Bool :=
  0 < lockDepthAt ops i

/-- One fan-out worker body of SeedWinProbability, keyed by a game id:
acquire the throttle gate, fetch the win-probability plays for the game; a
fetch error is logged and skipped (the worker returns nil), an empty result
is skipped, otherwise the plays are upserted. -/
def winProbWorker (thr : Int → Except String Unit)
    (fetch : Int → Except String (List (Option WinProbSrc)))
    (tbl : List ((Int × String) × PlayWinProbabilityRow)) (gid : Int) :
    Except String (List ((Int × String) × PlayWinProbabilityRow)) :=
  match thr gid with
  | .error e => .error e
  | .ok _ =>
    match fetch gid with
    | .error _ => .ok tbl
    | .ok plays =>
      if plays.length = 0 then .ok tbl
      else .ok (insertPlayWinProbability tbl plays).2

/-- The per-year fan-out pool of SeedWinProbability over its resolved game
id key set, with worker completions serialized in key order; the pool stops
at the first worker error (errgroup cancellation). -/
def winProbFanOut (thr : Int → Except String Unit)
    (fetch : Int → Except String (List (Option WinProbSrc))) :
    List Int → List ((Int × String) × PlayWinProbabilityRow) →
    Except String (List ((Int × String) × PlayWinProbabilityRow))
  | [], tbl => .ok tbl
  | gid :: rest, tbl =>
    match winProbWorker thr fetch tbl gid with
    | .error e => .error e
    | .ok t2 => winProbFanOut thr fetch rest t2

/-- Trace event of a fetch-transform-load task: a throttle-gate wait, an
upstream fetch for the named operation, or a store load (write) call for the
named operation carrying the batch size handed to it. -/
inductive SeedEv
  | throttleWait
  | fetchCall (operation : String)
  | loadCall (operation : String) (count : Nat)
deriving DecidableEq, Repr

def isFetchEv : SeedEv → Bool
  | .fetchCall _ => true
  | _ => false

def isLoadEv : SeedEv → Bool
  | .loadCall _ _ => true
  | _ => false

def prevIsThrottle : Option SeedEv → Bool
  | some .throttleWait => true
  | _ => false

def prevIsFetch : Option SeedEv → Bool
  | some (.fetchCall _) => true
  | _ => false

/-- Every fetch event in the trace directly follows a throttle-gate wait. -/
def fetchesThrottledAux (prev : Option SeedEv) : List SeedEv → Bool
  | [] => true
  | e :: rest =>
    (!isFetchEv e || prevIsThrottle prev) && fetchesThrottledAux (some e) rest

def fetchesThrottled (tr : List SeedEv) : Bool :=
  fetchesThrottledAux none tr

/-- Every load event in the trace directly follows a fetch. -/
def loadsFollowFetchAux (prev : Option SeedEv) : List SeedEv → Bool
  | [] => true
  | e :: rest =>
    (!isLoadEv e || prevIsFetch prev) && loadsFollowFetchAux (some e) rest

def loadsFollowFetch (tr : List SeedEv) : Bool :=
  loadsFollowFetchAux none tr

/-- The years the seeder walks (seed/seeder.go supportedYears). -/
def supportedYears : List Int := [2024, 2025]

/-- SeedPlayTypes of the seed package: gate, fetch, load, each failure
returned wrapped. -/
def seedPkgSeedPlayTypes (thr : Except String Unit)
    (fetch : Except String (List (Option PlayTypeSrc)))
    (tbl : List (Int × PlayType)) :
    List SeedEv × Except String (List (Int × PlayType)) :=
  match thr with
  | .error e =>
    ([.throttleWait], .error ("failed to wait for rate limit; " ++ e))
  | .ok _ =>
    match fetch with
    | .error e =>
      ([.throttleWait, .fetchCall "play_types"],
       .error ("failed to get play types; " ++ e))
    | .ok playTypes =>
      ([.throttleWait, .fetchCall "play_types",
        .loadCall "play_types" playTypes.length],
       .ok (insertPlayTypes tbl playTypes).2)

/-- SeedPlayTypes of the internal package (the seeder wired up by
cmd/seeder/main.go): it fetches and loads with no throttle call at all. -/
def internalSeedPlayTypes (fetch : Except String (List (Option PlayTypeSrc)))
    (tbl : List (Int × PlayType)) :
    List SeedEv × Except String (List (Int × PlayType)) :=
  match fetch with
  | .error e =>
    ([.fetchCall "play_types"], .error ("failed to get play types; " ++ e))
  | .ok playTypes =>
    ([.fetchCall "play_types", .loadCall "play_types" playTypes.length],
     .ok (insertPlayTypes tbl playTypes).2)

/-- The per-year loop of SeedCalendar (seed package): gate then fetch for
each year, accumulating every fetched week; an error aborts the task. -/
def seedCalendarLoop (thr : Int → Except String Unit)
    (getCal : Int → Except String (List (Option CalendarWeekSrc))) :
    List Int → List (Option CalendarWeekSrc) →
    List SeedEv × Except String (List (Option CalendarWeekSrc))
  | [], all => ([], .ok all)
  | y :: ys, all =>
    match thr y with
    | .error e =>
      ([.throttleWait], .error ("failed to wait for rate limit; " ++ e))
    | .ok _ =>
      match getCal y with
      | .error e =>
        ([.throttleWait, .fetchCall "calendar"],
         .error ("failed to get calendar; " ++ e))
      | .ok weeks =>
        let r := seedCalendarLoop thr getCal ys (all ++ weeks)
        (.throttleWait :: .fetchCall "calendar" :: r.1, r.2)

/-- SeedCalendar (seed package): after the year loop the accumulated batch
is handed to InsertCalendarWeeks unconditionally, zero records included. -/
def seedCalendar (thr : Int → Except String Unit)
    (getCal : Int → Except String (List (Option CalendarWeekSrc)))
    (tbl : List ((Int × Int × String) × CalendarWeek)) :
    List SeedEv × Except String (List ((Int × Int × String) × CalendarWeek)) :=
  match seedCalendarLoop thr getCal supportedYears [] with
  | (evs, .error e) => (evs, .error e)
  | (evs, .ok all) =>
    (evs ++ [.loadCall "calendar_weeks" all.length],
     .ok (insertCalendarWeeks tbl all).2)

/-- The per-year loop of SeedDrives (seed package): gate, fetch, and a load
only when the fetch yielded a nonempty batch; the records themselves are
opaque to the task layer, which hands them to InsertDrives unchanged. -/
def seedDrivesLoop {α : Type} (thr : Int → Except String Unit)
    (getDrives : Int → Except String (List α)) :
    List Int → List SeedEv × Except String Unit
  | [] => ([], .ok ())
  | y :: ys =>
    match thr y with
    | .error e =>
      ([.throttleWait], .error ("failed to wait for rate limit; " ++ e))
    | .ok _ =>
      match getDrives y with
      | .error e =>
        ([.throttleWait, .fetchCall "drives"],
         .error ("failed to get drives; " ++ e))
      | .ok drives =>
        let r := seedDrivesLoop thr getDrives ys
        if 0 < drives.length then
          (.throttleWait :: .fetchCall "drives" ::
            .loadCall "drives" drives.length :: r.1, r.2)
        else
          (.throttleWait :: .fetchCall "drives" :: r.1, r.2)

def seedDrives {α : Type} (thr : Int → Except String Unit)
    (getDrives : Int → Except String (List α)) :
    List SeedEv × Except String Unit :=
  seedDrivesLoop thr getDrives supportedYears

theorem lookupRow_append {K V : Type} [DecidableEq K]
    (k : K) (t1 t2 : List (K × V)) :
    lookupRow k (t1 ++ t2) =
      match lookupRow k t1 with
      | some v => some v
      | none => lookupRow k t2 := by
  induction t1 with
  | nil => simp [lookupRow]
  | cons hd tl ih =>
    obtain ⟨k0, v0⟩ := hd
    by_cases h : k0 = k
    · simp [lookupRow, h]
    · simp [lookupRow, h, ih]

theorem lookupRow_isSome_of_mem {K V : Type} [DecidableEq K]
    {k : K} {v : V} {t : List (K × V)} (h : (k, v) ∈ t) :
    (lookupRow k t).isSome = true := by
  induction t with
  | nil => simp at h
  | cons hd tl ih =>
    obtain ⟨k0, v0⟩ := hd
    rcases List.mem_cons.mp h with h | h
    · cases h
      simp [lookupRow]
    · by_cases hk : k0 = k
      · simp [lookupRow, hk]
      · simp [lookupRow, hk, ih h]

theorem mem_upsertRow {K V : Type} [DecidableEq K]
    {p : K × V} {k : K} {v : V} {t : List (K × V)}
    (h : p ∈ upsertRow k v t) : p = (k, v) ∨ p ∈ t := by
  induction t with
  | nil => simpa [upsertRow] using h
  | cons hd tl ih =>
    obtain ⟨k0, v0⟩ := hd
    by_cases hk : k0 = k
    · simp only [upsertRow, hk, if_true] at h
      rcases List.mem_cons.mp h with h | h
      · exact Or.inl h
      · exact Or.inr (List.mem_cons_of_mem _ h)
    · simp only [upsertRow, hk, if_false] at h
      rcases List.mem_cons.mp h with h | h
      · exact Or.inr (h ▸ List.mem_cons_self _ _)
      · rcases ih h with h | h
        · exact Or.inl h
        · exact Or.inr (List.mem_cons_of_mem _ h)

theorem lookupRow_eq_some_of_mem {K V : Type} [DecidableEq K]
    {k : K} {v : V} {t : List (K × V)} (hnd : (rowKeys t).Nodup)
    (h : (k, v) ∈ t) : lookupRow k t = some v := by
  induction t with
  | nil => simp at h
  | cons hd tl ih =>
    obtain ⟨k0, v0⟩ := hd
    simp only [rowKeys, List.map_cons, List.nodup_cons] at hnd
    rcases List.mem_cons.mp h with h | h
    · cases h
      simp [lookupRow]
    · have hk : k0 ≠ k := by
        intro he
        subst he
        exact hnd.1 (List.mem_map.mpr ⟨(k0, v), h, rfl⟩)
      simp [lookupRow, hk, ih hnd.2 h]

theorem mem_of_lookupRow_eq_some {K V : Type} [DecidableEq K]
    {k : K} {v : V} {t : List (K × V)} (h : lookupRow k t = some v) :
    (k, v) ∈ t := by
  induction t with
  | nil => simp [lookupRow] at h
  | cons hd tl ih =>
    obtain ⟨k0, v0⟩ := hd
    by_cases hk : k0 = k
    · subst hk
      simp only [lookupRow, if_true, eq_self_iff_true, Option.some.injEq,
        if_pos] at h
      subst h
      exact List.mem_cons_self _ _
    · simp only [lookupRow, hk, if_false] at h
      exact List.mem_cons_of_mem _ (ih h)

/-- The valid (non-nil, nonzero-id) source records of an InsertTeams input. -/
def validTeamSrcs (teams : List (Option TeamSrc)) : List TeamSrc :=
  teams.filterMap fun ot =>
    match ot with
    | none => none
    | some t => if t.id = 0 then none else some t

/-- The last record with the given id in a source list. -/
def lastWithId (i : Int) : List TeamSrc → Option TeamSrc
  | [] => none
  | t :: rest =>
    match lastWithId i rest with
    | some u => some u
    | none => if t.id = i then some t else none

theorem teamsById_fold_lookup (teams : List (Option TeamSrc)) :
    ∀ (m : List (Int × Team)) (i : Int),
      lookupRow i (teams.foldl teamsByIdStep m) =
        match lastWithId i (validTeamSrcs teams) with
        | some t => some (mkTeam t)
        | none => lookupRow i m := by
  induction teams with
  | nil => intro m i; simp [validTeamSrcs, lastWithId]
  | cons ot rest ih =>
    intro m i
    match ot with
    | none =>
      simpa [validTeamSrcs, teamsByIdStep] using ih m i
    | some t =>
      by_cases h0 : t.id = 0
      · have hv : validTeamSrcs (some t :: rest) = validTeamSrcs rest := by
          simp [validTeamSrcs, h0]
        rw [List.foldl_cons]
        simp only [teamsByIdStep, h0, if_true, hv]
        exact ih m i
      · have hv : validTeamSrcs (some t :: rest) = t :: validTeamSrcs rest := by
          simp [validTeamSrcs, h0]
        rw [List.foldl_cons]
        simp only [teamsByIdStep, h0, if_false, hv]
        rw [ih (upsertRow t.id (mkTeam t) m) i]
        cases hl : lastWithId i (validTeamSrcs rest) with
        | some u => simp [lastWithId, hl]
        | none =>
          simp only [lastWithId, hl]
          by_cases hi : t.id = i
          · subst hi
            simp [lookupRow_upsertRow_self]
          · simp [hi, lookupRow_upsertRow_ne hi]

theorem teamsById_fold_keys_nodup (teams : List (Option TeamSrc)) :
    ∀ (m : List (Int × Team)), (rowKeys m).Nodup →
      (rowKeys (teams.foldl teamsByIdStep m)).Nodup := by
  induction teams with
  | nil => intro m h; simpa using h
  | cons ot rest ih =>
    intro m h
    rw [List.foldl_cons]
    match ot with
    | none => exact ih m h
    | some t =>
      by_cases h0 : t.id = 0
      · simp only [teamsByIdStep, h0, if_true]
        exact ih m h
      · simp only [teamsByIdStep, h0, if_false]
        exact ih _ (rowKeys_nodup_upsertRow _ _ h)

theorem teamsById_fold_id_inv (teams : List (Option TeamSrc)) :
    ∀ (m : List (Int × Team)), (∀ p ∈ m, (Prod.snd p).id = p.1) →
      ∀ p ∈ teams.foldl teamsByIdStep m, (Prod.snd p).id = p.1 := by
  induction teams with
  | nil => intro m h; simpa using h
  | cons ot rest ih =>
    intro m h
    rw [List.foldl_cons]
    match ot with
    | none => exact ih m h
    | some t =>
      by_cases h0 : t.id = 0
      · simp only [teamsByIdStep, h0, if_true]
        exact ih m h
      · simp only [teamsByIdStep, h0, if_false]
        refine ih _ ?_
        intro p hp
        rcases mem_upsertRow hp with hp | hp
        · subst hp
          rfl
        · exact h p hp

theorem teamsById_keys_nodup (teams : List (Option TeamSrc)) :
    (rowKeys (teamsById teams)).Nodup :=
  teamsById_fold_keys_nodup teams [] (by simp [rowKeys])

theorem teamsById_id_inv (teams : List (Option TeamSrc)) :
    ∀ p ∈ teamsById teams, (Prod.snd p).id = p.1 :=
  teamsById_fold_id_inv teams [] (by simp)

theorem teamsById_lookup (teams : List (Option TeamSrc)) (i : Int) :
    lookupRow i (teamsById teams) =
      match lastWithId i (validTeamSrcs teams) with
      | some t => some (mkTeam t)
      | none => none := by
  have h := teamsById_fold_lookup teams [] i
  simpa [teamsById, lookupRow] using h

/-- C8: every embedded Insert method of the Database, called with an empty
(or nil) input slice, returns nil and performs no store write: the batch it
hands to the store is empty and the table is unchanged. -/
theorem claim_C8_empty_batches_are_noops :
    (∀ tbl, insertConferences tbl [] = ([], tbl)) ∧
    (∀ tbl, insertPlayTypes tbl [] = ([], tbl)) ∧
    (∀ tbl, insertPlayStatTypes tbl [] = .ok ([], tbl)) ∧
    (∀ tbl, insertDraftTeams tbl [] = ([], tbl)) ∧
    (∀ tbl, insertAdvancedBoxScores tbl [] = ([], tbl)) ∧
    (∀ tbl, insertPlayWinProbability tbl [] = ([], tbl)) ∧
    (∀ tbl, insertTeams tbl [] = ([], tbl)) ∧
    (∀ tbl, insertGames tbl [] = ([], tbl)) ∧
    (∀ tbl, insertPlays tbl [] = ([], tbl)) ∧
    (∀ tbl, insertCalendarWeeks tbl [] = ([], tbl)) :=
  ⟨fun _ => rfl, fun _ => rfl, fun _ => rfl, fun _ => rfl, fun _ => rfl,
   fun _ => rfl, fun _ => rfl, fun _ => rfl, fun _ => rfl, fun _ => rfl⟩

/-- C9 (amended): the writers with an explicit natural-key conflict target
(conferences, games, plays) silently drop nil records and records whose
natural key is the zero value, so their write batches never contain a
zero-keyed row; the UpdateAll writers drop only nil records — in particular
InsertAdvancedBoxScores constructs and writes a row whose game id is zero
when handed one. -/
theorem claim_C9_zero_key_rows :
    (∀ cs, conferenceModels (none :: cs) = conferenceModels cs) ∧
    (∀ gs, gameModels (none :: gs) = gameModels gs) ∧
    (∀ ps, playModels (none :: ps) = playModels ps) ∧
    (∀ cs m, m ∈ conferenceModels cs → m.id ≠ 0) ∧
    (∀ gs m, m ∈ gameModels gs → m.id ≠ 0) ∧
    (∀ ps m, m ∈ playModels ps → m.id ≠ "") ∧
    ((insertAdvancedBoxScores [] [(0, some "payload")]).1 =
      [{ gameID := 0, payload := "payload" }]) := by
  refine ⟨fun cs => rfl, fun gs => rfl, fun ps => rfl, ?_, ?_, ?_, rfl⟩
  · intro cs m hm
    simp only [conferenceModels, List.mem_filterMap] at hm
    obtain ⟨oc, _, he⟩ := hm
    match oc with
    | none => simp at he
    | some c =>
      by_cases h : c.id = 0
      · simp [h] at he
      · simp only [h, if_false, Option.some.injEq] at he
        subst he
        exact h
  · intro gs m hm
    simp only [gameModels, List.mem_filterMap] at hm
    obtain ⟨og, _, he⟩ := hm
    match og with
    | none => simp at he
    | some g =>
      by_cases h : g.id = 0
      · simp [h] at he
      · simp only [h, if_false, Option.some.injEq] at he
        subst he
        exact h
  · intro ps m hm
    simp only [playModels, List.mem_filterMap] at hm
    obtain ⟨op, _, he⟩ := hm
    match op with
    | none => simp at he
    | some p =>
      by_cases h : p.id = ""
      · simp [h] at he
      · simp only [h, if_false, Option.some.injEq] at he
        subst he
        exact h

/-- C9 witness: a conference with id 7 passes the filter and its written
row has a nonzero key. -/
theorem claim_C9_zero_key_rows_witness :
    ({ id := 7, name := "Big Ten", shortName := "Big Ten",
       abbreviation := "B1G", classification := "fbs" } : Conference).id ≠ 0 :=
  claim_C9_zero_key_rows.2.2.2.1
    [some { id := 7, name := "Big Ten", shortName := "Big Ten",
            abbreviation := "B1G", classification := "fbs" }]
    _ (by decide)

/-- C9 counterexample: the claim says no store row with a zero-valued
natural key is ever constructed or written by an upsert writer keyed on an
upstream natural key; InsertAdvancedBoxScores (keyed on the upstream game
id) writes a row with game id zero when the accumulated mapping holds one. -/
theorem claim_C9_zero_key_rows_counterexample :
    (insertAdvancedBoxScores [] [(0, some "payload")]).1 =
      [{ gameID := 0, payload := "payload" }] ∧
    (insertAdvancedBoxScores [] [(0, some "payload")]).2 =
      [(0, { gameID := 0, payload := "payload" })] := by
  exact ⟨rfl, rfl⟩

/-- C10: InsertTeams de-duplicates its input by team id — the written batch
has pairwise-distinct ids, a model row is in the batch exactly when it is
the transform of the last valid occurrence of its id in the input, and rows
whose trimmed school name is empty are dropped. -/
theorem claim_C10_insert_teams_dedupe :
    (∀ teams, ((teamModels teams).map Team.id).Nodup) ∧
    (∀ teams (m : Team), m ∈ teamModels teams ↔
      ∃ t, lastWithId m.id (validTeamSrcs teams) = some t ∧ mkTeam t = m ∧
        m.school ≠ "") := by
  constructor
  · intro teams
    have hinv := teamsById_id_inv teams
    have hnd := teamsById_keys_nodup teams
    have h1 : ((teamsById teams).map Prod.snd).map Team.id =
        rowKeys (teamsById teams) := by
      rw [List.map_map]
      exact List.map_congr_left hinv
    have hsub : List.Sublist ((teamModels teams).map Team.id)
        (((teamsById teams).map Prod.snd).map Team.id) := by
      exact List.Sublist.map Team.id (List.filter_sublist _)
    rw [h1] at hsub
    exact hnd.sublist hsub
  · intro teams m
    constructor
    · intro hm
      have hm2 := List.mem_filter.mp hm
      obtain ⟨hmem, hschool⟩ := hm2
      obtain ⟨p, hp, hps⟩ := List.mem_map.mp hmem
      have hid : m.id = p.1 := by
        rw [← hps]
        exact teamsById_id_inv teams p hp
      have hpm : (m.id, m) ∈ teamsById teams := by
        rw [hid, ← hps]
        exact hp
      have hlk : lookupRow m.id (teamsById teams) = some m :=
        lookupRow_eq_some_of_mem (teamsById_keys_nodup teams) hpm
      rw [teamsById_lookup] at hlk
      cases hl : lastWithId m.id (validTeamSrcs teams) with
      | none =>
        rw [hl] at hlk
        simp at hlk
      | some t =>
        rw [hl] at hlk
        simp only [Option.some.injEq] at hlk
        exact ⟨t, rfl, hlk, by simpa using hschool⟩
    · rintro ⟨t, hl, hmk, hschool⟩
      have hlk : lookupRow m.id (teamsById teams) = some m := by
        rw [teamsById_lookup, hl]
        show some (mkTeam t) = some m
        rw [hmk]
      have hmem := mem_of_lookupRow_eq_some hlk
      refine List.mem_filter.mpr ⟨List.mem_map.mpr ⟨(m.id, m), hmem, rfl⟩, ?_⟩
      simpa using hschool

/-- C10 witness: two occurrences of id 5 collapse to the later one, and an
empty-school record is dropped. -/
theorem claim_C10_insert_teams_dedupe_witness :
    (({ id := 5, school := "Ohio State", mascot := "", abbreviation := "",
        alternateNames := [], conference := "", division := "",
        classification := "", color := "", alternateColor := "", logos := [],
        twitter := "", venueID := none } : Team) ∈
      teamModels
        [some { id := 5, school := "Ohio", mascot := "", abbreviation := "",
                alternateNames := [], conference := "", division := "",
                classification := "", color := "", alternateColor := "",
                logos := [], twitter := "", location := none },
         some { id := 5, school := "Ohio State", mascot := "",
                abbreviation := "", alternateNames := [], conference := "",
                division := "", classification := "", color := "",
                alternateColor := "", logos := [], twitter := "",
                location := none }]) := by
  refine (claim_C10_insert_teams_dedupe.2 _ _).mpr ?_
  refine ⟨{ id := 5, school := "Ohio State", mascot := "", abbreviation := "",
            alternateNames := [], conference := "", division := "",
            classification := "", color := "", alternateColor := "",
            logos := [], twitter := "", location := none }, ?_, ?_, ?_⟩
  · decide
  · decide
  · decide

/-- Upstream response used to exercise C1 on the draft-teams writer. -/
def respC1 : List (Option DraftTeamSrc) :=
  [some { location := "Dallas", nickname := "Cowboys",
          displayName := "Dallas Cowboys", logo := "logo.png" }]

/-- C1 (amended): re-running a task whose writer upserts on a natural key
(conferences, play types, games, plays, teams, calendar weeks, advanced box
scores, win probability) leaves the store byte-identical; but the pipeline
as a whole is not idempotent: InsertDraftTeams (insert with ON CONFLICT DO
NOTHING into an auto-key table with no unique natural key) appends its model
rows again on every rerun, and InsertPlayStatTypes (bare insert of ids 1..N)
fails with a uniqueness violation when rerun over its own output. -/
theorem claim_C1_idempotent_reseed :
    (∀ tbl cs, (insertConferences (insertConferences tbl cs).2 cs).2 =
      (insertConferences tbl cs).2) ∧
    (∀ tbl pts, (insertPlayTypes (insertPlayTypes tbl pts).2 pts).2 =
      (insertPlayTypes tbl pts).2) ∧
    (∀ tbl gs, (insertGames (insertGames tbl gs).2 gs).2 =
      (insertGames tbl gs).2) ∧
    (∀ tbl ps, (insertPlays (insertPlays tbl ps).2 ps).2 =
      (insertPlays tbl ps).2) ∧
    (∀ tbl ts, (insertTeams (insertTeams tbl ts).2 ts).2 =
      (insertTeams tbl ts).2) ∧
    (∀ tbl ws, (insertCalendarWeeks (insertCalendarWeeks tbl ws).2 ws).2 =
      (insertCalendarWeeks tbl ws).2) ∧
    (∀ tbl sc, (insertAdvancedBoxScores (insertAdvancedBoxScores tbl sc).2 sc).2 =
      (insertAdvancedBoxScores tbl sc).2) ∧
    (∀ tbl wps, (insertPlayWinProbability (insertPlayWinProbability tbl wps).2 wps).2 =
      (insertPlayWinProbability tbl wps).2) ∧
    (∀ tbl ds, 0 < (draftTeamModels ds).length →
      ((insertDraftTeams (insertDraftTeams tbl ds).2 ds).2).length =
        ((insertDraftTeams tbl ds).2).length + (draftTeamModels ds).length) ∧
    (∀ tbl names ms tbl2, insertPlayStatTypes tbl names = .ok (ms, tbl2) →
      ms ≠ [] →
      insertPlayStatTypes tbl2 names =
        .error "could not insert play stat types") := by
  refine ⟨?_, ?_, ?_, ?_, ?_, ?_, ?_, ?_, ?_, ?_⟩
  · intro tbl cs
    by_cases h0 : cs.length = 0
    · simp [insertConferences, h0]
    · by_cases h1 : (conferenceModels cs).length = 0
      · simp [insertConferences, h0, h1]
      · simp [insertConferences, h0, h1, upsertBatch_replay]
  · intro tbl pts
    by_cases h0 : pts.length = 0
    · simp [insertPlayTypes, h0]
    · by_cases h1 : (playTypeModels pts).length = 0
      · simp [insertPlayTypes, h0, h1]
      · simp [insertPlayTypes, h0, h1, upsertBatch_replay]
  · intro tbl gs
    by_cases h0 : gs.length = 0
    · simp [insertGames, h0]
    · by_cases h1 : (gameModels gs).length = 0
      · simp [insertGames, h0, h1]
      · simp [insertGames, h0, h1, upsertBatch_replay]
  · intro tbl ps
    by_cases h0 : ps.length = 0
    · simp [insertPlays, h0]
    · by_cases h1 : (playModels ps).length = 0
      · simp [insertPlays, h0, h1]
      · simp [insertPlays, h0, h1, upsertBatch_replay]
  · intro tbl ts
    by_cases h0 : ts.length = 0
    · simp [insertTeams, h0]
    · by_cases h1 : (teamsById ts).length = 0
      · simp [insertTeams, h0, h1]
      · by_cases h2 : (teamModels ts).length = 0
        · simp [insertTeams, h0, h1, h2]
        · simp [insertTeams, h0, h1, h2, upsertBatch_replay]
  · intro tbl ws
    by_cases h0 : ws.length = 0
    · simp [insertCalendarWeeks, h0]
    · by_cases h1 : (calendarWeekModels ws).length = 0
      · simp [insertCalendarWeeks, h0, h1]
      · simp [insertCalendarWeeks, h0, h1, upsertBatch_replay]
  · intro tbl sc
    by_cases h0 : sc.length = 0
    · simp [insertAdvancedBoxScores, h0]
    · simp [insertAdvancedBoxScores, h0, upsertBatch_replay]
  · intro tbl wps
    by_cases h0 : wps.length = 0
    · simp [insertPlayWinProbability, h0]
    · simp [insertPlayWinProbability, h0, upsertBatch_replay]
  · intro tbl ds h
    have hds : ¬ ds.length = 0 := by
      intro h0
      rw [List.length_eq_zero] at h0
      subst h0
      simp [draftTeamModels] at h
    have hm : ¬ (draftTeamModels ds).length = 0 := by omega
    simp only [insertDraftTeams, hds, if_false, hm]
    simp
    omega
  · intro tbl names ms tbl2 h hne
    by_cases hc : (cleanNames names).length = 0
    · simp only [insertPlayStatTypes, hc, if_true] at h
      cases h
      exact absurd rfl hne
    · simp only [insertPlayStatTypes, hc, if_false] at h ⊢
      by_cases ha :
          ((cleanNames names).enum.map fun p => ((Int.ofNat p.1) + 1, p.2)).any
            (fun m => (lookupRow m.1 tbl).isSome) = true
      · rw [if_pos ha] at h
        cases h
      · rw [if_neg ha] at h
        cases h
        have hmem : ∃ m0, m0 ∈
            ((cleanNames names).enum.map fun p => ((Int.ofNat p.1) + 1, p.2)) := by
          cases hl : (cleanNames names).enum.map
              (fun p => ((Int.ofNat p.1) + 1, p.2)) with
          | nil => exact absurd hl hne
          | cons x xs => exact ⟨x, hl ▸ List.mem_cons_self x xs⟩
        obtain ⟨m0, hm0⟩ := hmem
        have hnone : lookupRow m0.1 tbl = none := by
          have := fun hx => ha (List.any_eq_true.mpr ⟨m0, hm0, hx⟩)
          cases hlk : lookupRow m0.1 tbl with
          | none => rfl
          | some v => exact absurd (by rw [hlk]; rfl) this
        have hpm : (m0.1, m0.2) ∈
            ((cleanNames names).enum.map fun p => ((Int.ofNat p.1) + 1, p.2)) := by
          rw [Prod.mk.eta]
          exact hm0
        have hsome : (lookupRow m0.1 (tbl ++
            ((cleanNames names).enum.map fun p =>
              ((Int.ofNat p.1) + 1, p.2)))).isSome = true := by
          rw [lookupRow_append, hnone]
          exact lookupRow_isSome_of_mem hpm
        rw [if_pos (List.any_eq_true.mpr ⟨m0, hm0, hsome⟩)]

/-- C1 witness: one valid draft team appended twice, and a play-stat-type
rerun failing on its own output. -/
theorem claim_C1_idempotent_reseed_witness :
    ((insertDraftTeams (insertDraftTeams [] respC1).2 respC1).2).length =
      ((insertDraftTeams [] respC1).2).length + 1 ∧
    insertPlayStatTypes [((1 : Int), "Rush")] ["Rush"] =
      .error "could not insert play stat types" := by
  constructor
  · exact claim_C1_idempotent_reseed.2.2.2.2.2.2.2.2.1 [] respC1 (by decide)
  · exact claim_C1_idempotent_reseed.2.2.2.2.2.2.2.2.2
      [] ["Rush"] [((1 : Int), "Rush")] [((1 : Int), "Rush")]
      rfl (by decide)

/-- C1 counterexample: the claim asserts that a second identical run leaves
identical row counts because every write resolves collisions by
last-write-wins; rerunning SeedDraftTeams with an unchanged one-element
upstream response doubles the draft_teams row count from 1 to 2. -/
theorem claim_C1_idempotent_reseed_counterexample :
    ((insertDraftTeams [] respC1).2).length = 1 ∧
    ((insertDraftTeams (insertDraftTeams [] respC1).2 respC1).2).length = 2 ∧
    (insertDraftTeams (insertDraftTeams [] respC1).2 respC1).2 ≠
      (insertDraftTeams [] respC1).2 := by
  refine ⟨by decide, by decide, by decide⟩

theorem isInitialized_eq (st : StoreMeta) :
    isInitialized st =
      (st.schemaExists &&
        ((requiredTables.filter fun t => st.tables.contains t).length ==
          requiredTables.length)) := by
  unfold isInitialized
  split
  · rename_i h
    have hs : st.schemaExists = false := by simpa using h
    rw [hs, Bool.false_and]
  · rename_i h
    have hs : st.schemaExists = true := by simpa using h
    rw [hs, Bool.true_and]
    show (if (List.filter (fun t => st.tables.contains t)
        requiredTables).length ≠ requiredTables.length then false else true) = _
    split
    · rename_i h2
      symm
      exact beq_eq_false_iff_ne.mpr h2
    · rename_i h2
      symm
      exact beq_iff_eq.mpr (not_not.mp h2)

theorem isInitialized_true_iff (st : StoreMeta) :
    isInitialized st = true ↔
      (st.schemaExists = true ∧
        ∀ t ∈ requiredTables, st.tables.contains t = true) := by
  rw [isInitialized_eq]
  simp [List.filter_length_eq_length]

theorem mem_flatten_take_mono {α : Type} {a : α} {l : List (List α)}
    {k n : Nat} (hkn : k ≤ n) (h : a ∈ (l.take k).flatten) :
    a ∈ (l.take n).flatten := by
  rw [List.mem_flatten] at h ⊢
  obtain ⟨s, hs, has⟩ := h
  refine ⟨s, ?_, has⟩
  have heq : l.take k = (l.take n).take k := by
    rw [List.take_take, Nat.min_eq_left hkn]
  rw [heq] at hs
  exact List.take_subset _ _ hs

/-- C2 (amended): the initialization sentinel evaluates, in order, namespace
(schema) existence and presence of the full sentinel-table set — a set that
spans the migration phases and includes int32_lists, which only the final
migration batch creates; both signals must hold for it to return true.  It
returns false against an empty store, and false whenever Initialize is
interrupted before its final migration batch.  It consults no
manually-applied constraint: Initialize has no such step and the sentinel's
value is independent of the constraints present. -/
theorem claim_C2_sentinel_signals :
    (∀ st, isInitialized st = true ↔
      (st.schemaExists = true ∧
        ∀ t ∈ requiredTables, st.tables.contains t = true)) ∧
    isInitialized emptyStore = false ∧
    (∀ k, k < migrationSteps.length →
      isInitialized (initializeUpTo k) = false) ∧
    isInitialized (initializeUpTo migrationSteps.length) = true ∧
    (∀ st c, isInitialized { st with manualConstraints := c } =
      isInitialized st) := by
  refine ⟨isInitialized_true_iff, rfl, ?_, by decide, fun st c => rfl⟩
  intro k hk
  cases hii : isInitialized (initializeUpTo k) with
  | false => rfl
  | true =>
    exfalso
    have h2 := (isInitialized_true_iff _).mp hii
    have h3 := h2.2 "int32_lists" (by decide)
    have hmem : "int32_lists" ∈ (migrationSteps.take k).flatten := by
      have h4 : (initializeUpTo k).tables.contains "int32_lists" = true := h3
      simpa [initializeUpTo, List.elem_iff] using h4
    have hk19 : k ≤ 19 := by
      have hlen : migrationSteps.length = 20 := by rfl
      omega
    have h5 := mem_flatten_take_mono hk19 hmem
    exact absurd h5 (by decide)

/-- C2 witness: interrupting Initialize right before its final migration
batch leaves the sentinel reporting false. -/
theorem claim_C2_sentinel_signals_witness :
    isInitialized (initializeUpTo 19) = false :=
  claim_C2_sentinel_signals.2.2.1 19 (by decide)

/-- C2 counterexample: the claim says the sentinel returns true only when
all three signals — namespace, marker object, and a manually-applied
constraint — hold; after a complete schema setup, no manual constraint is
present in the store, yet the sentinel returns true. -/
theorem claim_C2_sentinel_signals_counterexample :
    isInitialized (initializeUpTo migrationSteps.length) = true ∧
    hasManualConstraint (initializeUpTo migrationSteps.length) = false := by
  exact ⟨by decide, rfl⟩

theorem mem_phaseEvents {p q j : Nat} {n : String} {ph : List TaskSpec}
    (h : PEvent.start q j n ∈ phaseEvents p ph) : q = p := by
  simp only [phaseEvents, List.mem_map] at h
  obtain ⟨x, _, he⟩ := h
  cases he
  rfl

theorem runPhases_barrier :
    ∀ (phs : List (List TaskSpec)) (p q j : Nat) (n : String),
      PEvent.start q j n ∈ (runPhases p phs).1 →
      ∀ r, p ≤ r → r < q →
        ∃ ph, phs.get? (r - p) = some ph ∧ phaseFirstErr ph = none := by
  intro phs
  induction phs with
  | nil => intro p q j n h; simp [runPhases] at h
  | cons ph rest ih =>
    intro p q j n h r hpr hrq
    cases he : phaseFirstErr ph with
    | some e =>
      rw [runPhases, he] at h
      have := mem_phaseEvents h
      omega
    | none =>
      rw [runPhases, he] at h
      simp only [List.mem_append] at h
      rcases h with h | h
      · have := mem_phaseEvents h
        omega
      · by_cases hr : r = p
        · subst hr
          exact ⟨ph, by simp, he⟩
        · have hp1 : p + 1 ≤ r := by omega
          obtain ⟨ph2, hg, hfe⟩ := ih (p + 1) q j n h r hp1 hrq
          refine ⟨ph2, ?_, hfe⟩
          have : r - p = (r - (p + 1)) + 1 := by omega
          rw [this]
          simpa using hg

theorem runPhases_fail :
    ∀ (phs : List (List TaskSpec)) (i : Nat) (p : Nat) (ph : List TaskSpec)
      (e : String),
      phs.get? i = some ph →
      (∀ r ph2, r < i → phs.get? r = some ph2 → phaseFirstErr ph2 = none) →
      phaseFirstErr ph = some e →
      (runPhases p phs).2 = 1 ∧
      ∀ q j n, p + i < q → PEvent.start q j n ∉ (runPhases p phs).1 := by
  intro phs
  induction phs with
  | nil => intro i p ph e hg; simp at hg
  | cons ph0 rest ih =>
    intro i p ph e hg hpre hfe
    cases i with
    | zero =>
      simp only [List.get?_cons_zero, Option.some.injEq] at hg
      subst hg
      rw [runPhases, hfe]
      refine ⟨rfl, ?_⟩
      intro q j n hq hmem
      have := mem_phaseEvents hmem
      omega
    | succ i0 =>
      have h0 : phaseFirstErr ph0 = none :=
        hpre 0 ph0 (Nat.succ_pos i0) rfl
      rw [runPhases, h0]
      simp only [List.get?_cons_succ] at hg
      have hpre2 : ∀ r ph2, r < i0 → rest.get? r = some ph2 →
          phaseFirstErr ph2 = none := by
        intro r ph2 hr hgr
        exact hpre (r + 1) ph2 (by omega) (by simpa using hgr)
      obtain ⟨hexit, hnm⟩ := ih i0 (p + 1) ph e hg hpre2 hfe
      refine ⟨hexit, ?_⟩
      intro q j n hq hmem
      simp only [List.mem_append] at hmem
      rcases hmem with hmem | hmem
      · have := mem_phaseEvents hmem
        omega
      · exact hnm q j n (by omega) hmem

/-- C3: over the phase list declared in cmd/seeder/main.go, for any outcome
assignment, (a) a task of phase p+1 begins executing only if every phase up
to and including p ran and every one of its tasks returned successfully, and
(b) if phase p is the first phase in which some task returns an error, the
process exits with code 1 and no task of any later phase ever starts. -/
theorem claim_C3_phase_barrier (outcome : String → Option String) :
    (∀ p q j n, PEvent.start q j n ∈ (runPipeline (seederPhases outcome)).1 →
      p < q →
      ∃ ph, (seederPhases outcome).get? p = some ph ∧
        ∀ t ∈ ph, t.result = none) ∧
    (∀ p ph e, (seederPhases outcome).get? p = some ph →
      (∀ r ph2, r < p → (seederPhases outcome).get? r = some ph2 →
        phaseFirstErr ph2 = none) →
      phaseFirstErr ph = some e →
      (runPipeline (seederPhases outcome)).2 = 1 ∧
      ∀ q j n, p < q →
        PEvent.start q j n ∉ (runPipeline (seederPhases outcome)).1) := by
  constructor
  · intro p q j n hmem hpq
    obtain ⟨ph, hg, hfe⟩ :=
      runPhases_barrier (seederPhases outcome) 0 q j n hmem p (Nat.zero_le p) hpq
    refine ⟨ph, by simpa using hg, ?_⟩
    intro t ht
    have := List.findSome?_eq_none_iff.mp hfe t ht
    exact this
  · intro p ph e hg hpre hfe
    have h := runPhases_fail (seederPhases outcome) p 0 ph e hg hpre hfe
    exact ⟨h.1, fun q j n hq => h.2 q j n (by omega)⟩

/-- C3 witness: in an all-success run, the observed start of the first
phase-3 task implies phase 2 exists and every phase-2 task succeeded. -/
theorem claim_C3_phase_barrier_witness :
    ∃ ph, (seederPhases fun _ => none).get? 1 = some ph ∧
      ∀ t ∈ ph, t.result = none :=
  (claim_C3_phase_barrier (fun _ => none)).1 1 2 0 "SeedCalendar"
    (by decide) (by decide)

/-- The accumulator fold from an arbitrary starting state. -/
def accRunFrom (T : Nat) (st : AccState) (items : List (Int × String)) :
    AccState :=
  items.foldl (fun st p => accAdd T st p.1 p.2) st

theorem rowKeys_append {K V : Type} (a b : List (K × V)) :
    rowKeys (a ++ b) = rowKeys a ++ rowKeys b :=
  List.map_append Prod.fst a b

theorem accRunFrom_spec (T : Nat) (hT : 0 < T) :
    ∀ (items c : List (Int × String)) (fs : List (List (Int × String))),
      (rowKeys (c ++ items)).Nodup → c.length < T →
      (accRunFrom T { batch := c, flushes := fs } items).flushes.flatten ++
          (accRunFrom T { batch := c, flushes := fs } items).batch =
        fs.flatten ++ (c ++ items) ∧
      (accRunFrom T { batch := c, flushes := fs } items).flushes.length =
        fs.length + (c.length + items.length) / T ∧
      (accRunFrom T { batch := c, flushes := fs } items).batch.length =
        (c.length + items.length) % T ∧
      ∀ f ∈ (accRunFrom T { batch := c, flushes := fs } items).flushes,
        f ∈ fs ∨ f.length = T := by
  intro items
  induction items with
  | nil =>
    intro c fs hnd hc
    refine ⟨by simp [accRunFrom], ?_, ?_, ?_⟩
    · simp [accRunFrom, Nat.div_eq_of_lt hc]
    · simp [accRunFrom, Nat.mod_eq_of_lt hc]
    · intro f hf
      exact Or.inl (by simpa [accRunFrom] using hf)
  | cons hd rest ih =>
    intro c fs hnd hc
    obtain ⟨k, v⟩ := hd
    have hnotc : k ∉ rowKeys c := by
      rw [rowKeys_append] at hnd
      have hdis := (List.nodup_append.mp hnd).2.2
      intro hmem
      exact hdis hmem (by simp [rowKeys])
    have hb : upsertRow k v c = c ++ [(k, v)] :=
      upsertRow_append_of_not_mem v hnotc
    have hstep : accRunFrom T { batch := c, flushes := fs } ((k, v) :: rest) =
        accRunFrom T (accAdd T { batch := c, flushes := fs } k v) rest := rfl
    have hrest_nd : (rowKeys ((c ++ [(k, v)]) ++ rest)).Nodup := by
      have : (c ++ [(k, v)]) ++ rest = c ++ ((k, v) :: rest) := by simp
      rw [this]
      exact hnd
    by_cases hth : T ≤ (upsertRow k v c).length
    · have hlen : c.length + 1 = T := by
        rw [hb, List.length_append] at hth
        simp only [List.length_cons, List.length_nil] at hth
        omega
      have haccadd : accAdd T { batch := c, flushes := fs } k v =
          { batch := [], flushes := fs ++ [c ++ [(k, v)]] } := by
        simp only [accAdd, hb]
        rw [if_pos (hb ▸ hth)]
      rw [hstep, haccadd]
      have hnd2 : (rowKeys (([] : List (Int × String)) ++ rest)).Nodup := by
        simp only [List.nil_append]
        have h1 : (rowKeys ((k, v) :: rest)).Nodup := by
          rw [rowKeys_append] at hnd
          exact (List.nodup_append.mp hnd).2.1
        simp only [rowKeys, List.map_cons, List.nodup_cons] at h1
        exact h1.2
      obtain ⟨h1, h2, h3, h4⟩ := ih [] (fs ++ [c ++ [(k, v)]]) hnd2 hT
      refine ⟨?_, ?_, ?_, ?_⟩
      · rw [h1]
        simp
      · rw [h2]
        have hnum : c.length + ((k, v) :: rest).length = rest.length + T := by
          simp only [List.length_cons]
          omega
        rw [hnum, Nat.add_div_right _ hT]
        simp only [List.length_append, List.length_cons,
          List.length_nil, Nat.zero_add]
        generalize rest.length / T = d
        omega
      · rw [h3]
        have hnum : c.length + ((k, v) :: rest).length = rest.length + T := by
          simp only [List.length_cons]
          omega
        rw [hnum, Nat.add_mod_right]
        simp
      · intro f hf
        rcases h4 f hf with hf2 | hf2
        · rcases List.mem_append.mp hf2 with hf3 | hf3
          · exact Or.inl hf3
          · right
            simp only [List.mem_singleton] at hf3
            subst hf3
            simp only [List.length_append, List.length_cons,
              List.length_nil]
            omega
        · exact Or.inr hf2
    · have haccadd : accAdd T { batch := c, flushes := fs } k v =
          { batch := c ++ [(k, v)], flushes := fs } := by
        simp only [accAdd, hb]
        rw [if_neg (fun hcon => hth (by rw [hb]; exact hcon))]
      rw [hstep, haccadd]
      have hclen : (c ++ [(k, v)]).length < T := by
        rw [hb] at hth
        simp only [List.length_append, List.length_cons,
          List.length_nil] at hth ⊢
        omega
      obtain ⟨h1, h2, h3, h4⟩ := ih (c ++ [(k, v)]) fs hrest_nd hclen
      have hnum : (c ++ [(k, v)]).length + rest.length =
          c.length + ((k, v) :: rest).length := by
        simp only [List.length_append, List.length_cons, List.length_nil]
        omega
      refine ⟨?_, ?_, ?_, h4⟩
      · rw [h1]
        simp
      · rw [h2, hnum]
      · rw [h3, hnum]

/-- C4 (amended): with flush threshold 100 and a fan-out set of 250 records
under distinct keys, the accumulator performs exactly 2 threshold-triggered
flushes of 100 records each plus one final drain flush of 50; the
concatenation of all flushes is exactly the record set added, so nothing is
lost or duplicated; and the threshold-crossing worker swaps the full batch
out and clears the shared map while holding the lock, but performs the
store write only after releasing it. -/
theorem claim_C4_flush_correctness :
    (∀ (items : List (Int × String)), (rowKeys items).Nodup →
      items.length = 250 →
      (accRun 100 items).flushes.length = 2 ∧
      (∀ f ∈ (accRun 100 items).flushes, f.length = 100) ∧
      (accRun 100 items).batch.length = 50 ∧
      (accDrain (accRun 100 items)).length = 3 ∧
      (accDrain (accRun 100 items)).flatten = items) ∧
    (∀ gid, workerCriticalSection true gid =
        [.lockMutex, .insertKey gid, .swapAndClear, .unlockMutex,
         .storeWrite] ∧
      heldDuring (workerCriticalSection true gid) 2 = true ∧
      heldDuring (workerCriticalSection true gid) 4 = false) := by
  constructor
  · intro items hnd hlen
    have hrun : accRun 100 items =
        accRunFrom 100 { batch := [], flushes := [] } items := rfl
    obtain ⟨h1, h2, h3, h4⟩ :=
      accRunFrom_spec 100 (by omega) items [] []
        (by simpa using hnd) (by simp)
    rw [hrun]
    simp only [List.length_nil, Nat.zero_add, List.flatten_nil,
      List.nil_append, hlen] at h1 h2 h3
    have hflush : (accRunFrom 100 { batch := [], flushes := [] }
        items).flushes.length = 2 := by
      rw [h2]
    have hbatch : (accRunFrom 100 { batch := [], flushes := [] }
        items).batch.length = 50 := by
      rw [h3]
    refine ⟨hflush, ?_, hbatch, ?_, ?_⟩
    · intro f hf
      rcases h4 f hf with hf2 | hf2
      · simp at hf2
      · exact hf2
    · simp only [accDrain, hbatch]
      rw [if_pos (by omega)]
      simp [hflush]
    · simp only [accDrain, hbatch]
      rw [if_pos (by omega)]
      simpa using h1
  · intro gid
    exact ⟨rfl, rfl, rfl⟩

/-- The 250-record fan-out set with distinct keys 0..249 used to exercise
the C4 flush counts. -/
def c4Items : List (Int × String) :=
  (List.range 250).map fun i => (Int.ofNat i, "s")

/-- C4 witness: 250 records under the distinct keys 0..249 with threshold
100 yield 2 threshold flushes and a drain of 50. -/
theorem claim_C4_flush_correctness_witness :
    (accRun 100 c4Items).flushes.length = 2 ∧
    (accRun 100 c4Items).batch.length = 50 := by
  have hkeys : rowKeys c4Items = (List.range 250).map Int.ofNat := by
    simp only [c4Items, rowKeys, List.map_map]
    rfl
  have hinj : Function.Injective Int.ofNat := fun a b h => Int.ofNat.inj h
  have hnd : (rowKeys c4Items).Nodup := by
    rw [hkeys]
    exact List.Nodup.map hinj (List.nodup_range 250)
  have hlen : c4Items.length = 250 := by
    simp [c4Items]
  have h := claim_C4_flush_correctness.1 c4Items hnd hlen
  exact ⟨h.1, h.2.2.1⟩

/-- C4 counterexample: the claim says the threshold-crossing worker performs
the flush — write then clear — while holding the lock; the actual operation
sequence clears (swaps) at index 2 under the lock, unlocks at index 3, and
performs the store write at index 4 with the lock no longer held. -/
theorem claim_C4_flush_correctness_counterexample :
    workerCriticalSection true 7 =
      [.lockMutex, .insertKey 7, .swapAndClear, .unlockMutex, .storeWrite] ∧
    (workerCriticalSection true 7).get? 2 = some .swapAndClear ∧
    (workerCriticalSection true 7).get? 4 = some .storeWrite ∧
    heldDuring (workerCriticalSection true 7) 4 = false := by
  exact ⟨rfl, rfl, rfl, rfl⟩

theorem filter_ne_of_not_mem (bad : Int) :
    ∀ (l : List Int), bad ∉ l → (l.filter fun k => k != bad) = l := by
  intro l
  induction l with
  | nil => intro _; rfl
  | cons x xs ih =>
    intro h
    simp only [List.mem_cons, not_or] at h
    rw [List.filter_cons_of_pos]
    · rw [ih h.2]
    · simp only [bne_iff_ne, ne_eq, decide_not]
      simpa using fun he => h.1 he.symm

theorem filter_ne_length (bad : Int) :
    ∀ (l : List Int), l.Nodup → bad ∈ l →
      (l.filter fun k => k != bad).length = l.length - 1 := by
  intro l
  induction l with
  | nil => intro _ h; simp at h
  | cons x xs ih =>
    intro hnd hm
    simp only [List.nodup_cons] at hnd
    rcases List.mem_cons.mp hm with he | hm2
    · subst he
      rw [List.filter_cons_of_neg (by simp)]
      rw [filter_ne_of_not_mem _ _ hnd.1]
      simp
    · have hxb : x ≠ bad := fun he2 => hnd.1 (he2 ▸ hm2)
      rw [List.filter_cons_of_pos (by simpa using hxb)]
      rw [List.length_cons, ih hnd.2 hm2]
      have hpos : 0 < xs.length := List.length_pos.mpr (List.ne_nil_of_mem hm2)
      simp only [List.length_cons]
      omega

theorem insertPlayWinProbability_single
    (tbl : List ((Int × String) × PlayWinProbabilityRow)) (p : WinProbSrc)
    (hk : ((mkWinProb p).gameID, (mkWinProb p).playID) ∉ rowKeys tbl) :
    (insertPlayWinProbability tbl [some p]).2 =
      tbl ++ [(((mkWinProb p).gameID, (mkWinProb p).playID), mkWinProb p)] := by
  show (upsertBatch tbl ((playWinProbabilityModels [some p]).map
    fun m => ((m.gameID, m.playID), m))) = _
  show upsertRow ((mkWinProb p).gameID, (mkWinProb p).playID) (mkWinProb p)
    tbl = _
  exact upsertRow_append_of_not_mem _ hk

theorem winProbFanOut_spec (thr : Int → Except String Unit)
    (fetch : Int → Except String (List (Option WinProbSrc)))
    (bad : Int) (wp : Int → WinProbSrc) (e : String)
    (hwp : ∀ k, (wp k).gameId = k)
    (hbadfetch : fetch bad = .error e) :
    ∀ (keys : List Int) (tbl : List ((Int × String) × PlayWinProbabilityRow)),
      keys.Nodup →
      (∀ k ∈ keys, thr k = .ok ()) →
      (∀ k ∈ keys, k ≠ bad → fetch k = .ok [some (wp k)]) →
      (∀ k ∈ keys, ∀ s, (k, s) ∉ rowKeys tbl) →
      ∃ t2, winProbFanOut thr fetch keys tbl = .ok t2 ∧
        t2.length = tbl.length + (keys.filter fun k => k != bad).length := by
  intro keys
  induction keys with
  | nil =>
    intro tbl _ _ _ _
    exact ⟨tbl, rfl, by simp⟩
  | cons k rest ih =>
    intro tbl hnd hthr hfetch htbl
    simp only [List.nodup_cons] at hnd
    have hthrk : thr k = .ok () := hthr k (List.mem_cons_self k rest)
    by_cases hkb : k = bad
    · subst hkb
      have hworker : winProbWorker thr fetch tbl k = .ok tbl := by
        simp [winProbWorker, hthrk, hbadfetch]
      have hrun : winProbFanOut thr fetch (k :: rest) tbl =
          winProbFanOut thr fetch rest tbl := by
        simp only [winProbFanOut, hworker]
      rw [hrun]
      obtain ⟨t2, h2, hl⟩ := ih tbl hnd.2
        (fun k2 hk2 => hthr k2 (List.mem_cons_of_mem _ hk2))
        (fun k2 hk2 => hfetch k2 (List.mem_cons_of_mem _ hk2))
        (fun k2 hk2 => htbl k2 (List.mem_cons_of_mem _ hk2))
      refine ⟨t2, h2, ?_⟩
      rw [hl, List.filter_cons_of_neg (by simp)]
    · have hfk : fetch k = .ok [some (wp k)] :=
        hfetch k (List.mem_cons_self k rest) hkb
      have hkey : ((mkWinProb (wp k)).gameID, (mkWinProb (wp k)).playID) =
          (k, (wp k).playId) := by
        show ((wp k).gameId, (wp k).playId) = (k, (wp k).playId)
        rw [hwp k]
      have hknot : ((mkWinProb (wp k)).gameID, (mkWinProb (wp k)).playID) ∉
          rowKeys tbl := by
        rw [hkey]
        exact htbl k (List.mem_cons_self k rest) ((wp k).playId)
      have hworker : winProbWorker thr fetch tbl k =
          .ok (tbl ++ [((k, (wp k).playId), mkWinProb (wp k))]) := by
        simp only [winProbWorker, hthrk, hfk]
        rw [if_neg (by simp)]
        rw [insertPlayWinProbability_single tbl (wp k) hknot, hkey]
      have hrun : winProbFanOut thr fetch (k :: rest) tbl =
          winProbFanOut thr fetch rest
            (tbl ++ [((k, (wp k).playId), mkWinProb (wp k))]) := by
        simp only [winProbFanOut, hworker]
      rw [hrun]
      have htbl2 : ∀ k2 ∈ rest, ∀ s, (k2, s) ∉
          rowKeys (tbl ++ [((k, (wp k).playId), mkWinProb (wp k))]) := by
        intro k2 hk2 s hmem
        rw [rowKeys_append] at hmem
        rcases List.mem_append.mp hmem with hmem | hmem
        · exact htbl k2 (List.mem_cons_of_mem _ hk2) s hmem
        · simp only [rowKeys, List.map_cons, List.map_nil,
            List.mem_singleton] at hmem
          have : k2 = k := congrArg Prod.fst hmem
          exact hnd.1 (this ▸ hk2)
      obtain ⟨t2, h2, hl⟩ := ih _ hnd.2
        (fun k2 hk2 => hthr k2 (List.mem_cons_of_mem _ hk2))
        (fun k2 hk2 => hfetch k2 (List.mem_cons_of_mem _ hk2)) htbl2
      refine ⟨t2, h2, ?_⟩
      rw [hl, List.filter_cons_of_pos (by simpa using hkb)]
      simp only [List.length_append, List.length_cons, List.length_nil]
      omega

/-- C5: for a fan-out task over a key set of M distinct game ids in which
exactly one sub-fetch fails and every other sub-fetch succeeds with one
record (writes in the model always succeed), the SeedWinProbability worker
pool returns success — the failing key is logged and skipped, never
propagated — and exactly M−1 records are upserted. -/
theorem claim_C5_fanout_isolation
    (thr : Int → Except String Unit)
    (fetch : Int → Except String (List (Option WinProbSrc)))
    (keys : List Int) (bad : Int) (wp : Int → WinProbSrc) (e : String)
    (hnd : keys.Nodup) (hbm : bad ∈ keys)
    (hthr : ∀ k ∈ keys, thr k = .ok ())
    (hbadfetch : fetch bad = .error e)
    (hfetch : ∀ k ∈ keys, k ≠ bad → fetch k = .ok [some (wp k)])
    (hwp : ∀ k, (wp k).gameId = k) :
    ∃ t2, winProbFanOut thr fetch keys [] = .ok t2 ∧
      t2.length = keys.length - 1 := by
  obtain ⟨t2, hrun, hlen⟩ :=
    winProbFanOut_spec thr fetch bad wp e hwp hbadfetch keys [] hnd hthr
      hfetch (by simp [rowKeys])
  refine ⟨t2, hrun, ?_⟩
  rw [hlen, filter_ne_length bad keys hnd hbm]
  simp

/-- Worker oracles for the C5 witness: three games, game 2 failing. -/
def c5wp : Int → WinProbSrc := fun k =>
  { gameId := k, playId := "p", playText := "", homeId := 0, home := "",
    awayId := 0, away := "", spread := 0, homeBall := false, homeScore := 0,
    awayScore := 0, yardLine := 0, down := 0, distance := 0,
    homeWinProbability := 0, playNumber := 0 }

def c5thr : Int → Except String Unit := fun _ => .ok ()

def c5fetch : Int → Except String (List (Option WinProbSrc)) := fun k =>
  if k = 2 then .error "boom" else .ok [some (c5wp k)]

/-- C5 witness: keys 1,2,3 with the fetch for game 2 failing produce a
successful run with exactly 2 upserted records. -/
theorem claim_C5_fanout_isolation_witness :
    ∃ t2, winProbFanOut c5thr c5fetch [1, 2, 3] [] = .ok t2 ∧
      t2.length = ([1, 2, 3] : List Int).length - 1 :=
  claim_C5_fanout_isolation c5thr c5fetch [1, 2, 3] 2 c5wp "boom"
    (by decide) (by decide) (fun k _ => rfl) rfl
    (fun k _ hne => by simp [c5fetch, hne]) (fun k => rfl)

/-- C6 (amended): in the seed package every upstream request — including
each iteration of a per-year loop — directly follows a throttle-gate
acquisition, and a gate timeout fails the task with a wrapped error before
any fetch is issued; but the internal package seeder, the one
cmd/seeder/main.go actually constructs, performs its upstream requests with
no throttle-gate acquisition at all. -/
theorem claim_C6_throttle_gate :
    (∀ thr fetch tbl,
      fetchesThrottled (seedPkgSeedPlayTypes thr fetch tbl).1 = true) ∧
    (∀ thr getCal tbl,
      fetchesThrottled (seedCalendar thr getCal tbl).1 = true) ∧
    (∀ (α : Type) (thr : Int → Except String Unit)
        (getDrives : Int → Except String (List α)),
      fetchesThrottled (seedDrives thr getDrives).1 = true) ∧
    (∀ e fetch tbl,
      (seedPkgSeedPlayTypes (.error e) fetch tbl).2 =
        .error ("failed to wait for rate limit; " ++ e) ∧
      (seedPkgSeedPlayTypes (.error e) fetch tbl).1.contains
        (SeedEv.fetchCall "play_types") = false) ∧
    (∀ fetch tbl,
      (internalSeedPlayTypes fetch tbl).1.contains SeedEv.throttleWait =
        false) := by
  refine ⟨?_, ?_, ?_, ?_, ?_⟩
  · intro thr fetch tbl
    cases thr with
    | error e => rfl
    | ok u =>
      cases fetch with
      | error e => rfl
      | ok pts => rfl
  · intro thr getCal tbl
    simp only [seedCalendar, seedCalendarLoop, supportedYears]
    cases h1 : thr 2024 with
    | error e =>
      simp [h1, fetchesThrottled, fetchesThrottledAux, isFetchEv]
    | ok u1 =>
      cases h2 : getCal 2024 with
      | error e =>
        simp [h1, h2, fetchesThrottled, fetchesThrottledAux, isFetchEv,
          prevIsThrottle]
      | ok w1 =>
        cases h3 : thr 2025 with
        | error e =>
          simp [h1, h2, h3, fetchesThrottled, fetchesThrottledAux, isFetchEv,
            prevIsThrottle]
        | ok u2 =>
          cases h4 : getCal 2025 with
          | error e =>
            simp [h1, h2, h3, h4, fetchesThrottled, fetchesThrottledAux,
              isFetchEv, prevIsThrottle]
          | ok w2 =>
            simp [h1, h2, h3, h4, fetchesThrottled, fetchesThrottledAux,
              isFetchEv, isLoadEv, prevIsThrottle]
  · intro α thr getDrives
    simp only [seedDrives, seedDrivesLoop, supportedYears]
    cases h1 : thr 2024 with
    | error e =>
      simp [h1, fetchesThrottled, fetchesThrottledAux, isFetchEv]
    | ok u1 =>
      cases h2 : getDrives 2024 with
      | error e =>
        simp [h1, h2, fetchesThrottled, fetchesThrottledAux, isFetchEv,
          prevIsThrottle]
      | ok w1 =>
        cases h3 : thr 2025 with
        | error e =>
          by_cases hl1 : 0 < w1.length <;>
            simp [h1, h2, h3, hl1, fetchesThrottled, fetchesThrottledAux,
              isFetchEv, prevIsThrottle]
        | ok u2 =>
          cases h4 : getDrives 2025 with
          | error e =>
            by_cases hl1 : 0 < w1.length <;>
              simp [h1, h2, h3, h4, hl1, fetchesThrottled,
                fetchesThrottledAux, isFetchEv, prevIsThrottle]
          | ok w2 =>
            by_cases hl1 : 0 < w1.length <;> by_cases hl2 : 0 < w2.length <;>
              simp [h1, h2, h3, h4, hl1, hl2, fetchesThrottled,
                fetchesThrottledAux, isFetchEv, prevIsThrottle]
  · intro e fetch tbl
    exact ⟨rfl, rfl⟩
  · intro fetch tbl
    cases fetch with
    | error e => rfl
    | ok pts => rfl

/-- C6 counterexample: the claim says every upstream request made by any
seed task is preceded by a throttle-gate acquisition; the internal package
SeedPlayTypes — one of the tasks cmd/seeder/main.go runs — issues its fetch
with no throttle-gate wait anywhere in its trace. -/
theorem claim_C6_throttle_gate_counterexample :
    (internalSeedPlayTypes
        (.ok [some { id := 1, text := "Rush", abbreviation := "R" }]) []).1 =
      [.fetchCall "play_types", .loadCall "play_types" 1] ∧
    (internalSeedPlayTypes
        (.ok [some { id := 1, text := "Rush", abbreviation := "R" }])
        []).1.contains SeedEv.throttleWait = false := by
  exact ⟨rfl, rfl⟩

/-- C7 (amended): every embedded seed task performs its sub-steps in order —
each fetch directly follows a gate acquisition and each load directly
follows a fetch.  Per-year tasks such as SeedDrives skip the load call for a
year whose fetch yields zero records, performing no load at all when every
fetch is empty; but the accumulate-then-load task SeedCalendar invokes its
load unconditionally after the loop, zero-record batch included — the load
is an internal no-op in that case, so the task still returns success with
the store unchanged. -/
theorem claim_C7_fetch_transform_load :
    (∀ thr getCal tbl,
      loadsFollowFetch (seedCalendar thr getCal tbl).1 = true) ∧
    (∀ (α : Type) (thr : Int → Except String Unit)
        (getDrives : Int → Except String (List α)),
      loadsFollowFetch (seedDrives thr getDrives).1 = true) ∧
    (∀ (α : Type) (thr : Int → Except String Unit)
        (getDrives : Int → Except String (List α)),
      (∀ y ∈ supportedYears, thr y = .ok ()) →
      (∀ y ∈ supportedYears, getDrives y = .ok []) →
      (seedDrives thr getDrives).1.filter isLoadEv = [] ∧
      (seedDrives thr getDrives).2 = .ok ()) ∧
    (∀ thr getCal tbl,
      (∀ y ∈ supportedYears, thr y = .ok ()) →
      (∀ y ∈ supportedYears, getCal y = .ok []) →
      (seedCalendar thr getCal tbl).1.contains
        (SeedEv.loadCall "calendar_weeks" 0) = true ∧
      (seedCalendar thr getCal tbl).2 = .ok tbl) := by
  refine ⟨?_, ?_, ?_, ?_⟩
  · intro thr getCal tbl
    simp only [seedCalendar, seedCalendarLoop, supportedYears]
    cases h1 : thr 2024 with
    | error e =>
      simp [h1, loadsFollowFetch, loadsFollowFetchAux, isLoadEv]
    | ok u1 =>
      cases h2 : getCal 2024 with
      | error e =>
        simp [h1, h2, loadsFollowFetch, loadsFollowFetchAux, isLoadEv,
          prevIsFetch]
      | ok w1 =>
        cases h3 : thr 2025 with
        | error e =>
          simp [h1, h2, h3, loadsFollowFetch, loadsFollowFetchAux, isLoadEv,
            prevIsFetch]
        | ok u2 =>
          cases h4 : getCal 2025 with
          | error e =>
            simp [h1, h2, h3, h4, loadsFollowFetch, loadsFollowFetchAux,
              isLoadEv, prevIsFetch]
          | ok w2 =>
            simp [h1, h2, h3, h4, loadsFollowFetch, loadsFollowFetchAux,
              isLoadEv, isFetchEv, prevIsFetch]
  · intro α thr getDrives
    simp only [seedDrives, seedDrivesLoop, supportedYears]
    cases h1 : thr 2024 with
    | error e =>
      simp [h1, loadsFollowFetch, loadsFollowFetchAux, isLoadEv]
    | ok u1 =>
      cases h2 : getDrives 2024 with
      | error e =>
        simp [h1, h2, loadsFollowFetch, loadsFollowFetchAux, isLoadEv,
          prevIsFetch]
      | ok w1 =>
        cases h3 : thr 2025 with
        | error e =>
          by_cases hl1 : 0 < w1.length <;>
            simp [h1, h2, h3, hl1, loadsFollowFetch, loadsFollowFetchAux,
              isLoadEv, prevIsFetch]
        | ok u2 =>
          cases h4 : getDrives 2025 with
          | error e =>
            by_cases hl1 : 0 < w1.length <;>
              simp [h1, h2, h3, h4, hl1, loadsFollowFetch,
                loadsFollowFetchAux, isLoadEv, prevIsFetch]
          | ok w2 =>
            by_cases hl1 : 0 < w1.length <;> by_cases hl2 : 0 < w2.length <;>
              simp [h1, h2, h3, h4, hl1, hl2, loadsFollowFetch,
                loadsFollowFetchAux, isLoadEv, prevIsFetch]
  · intro α thr getDrives hthr hdr
    have h1 : thr 2024 = .ok () := hthr 2024 (by decide)
    have h2 : thr 2025 = .ok () := hthr 2025 (by decide)
    have h3 : getDrives 2024 = .ok [] := hdr 2024 (by decide)
    have h4 : getDrives 2025 = .ok [] := hdr 2025 (by decide)
    constructor
    · simp [seedDrives, seedDrivesLoop, supportedYears, h1, h2, h3, h4,
        isLoadEv]
    · simp [seedDrives, seedDrivesLoop, supportedYears, h1, h2, h3, h4]
  · intro thr getCal tbl hthr hcal
    have h1 : thr 2024 = .ok () := hthr 2024 (by decide)
    have h2 : thr 2025 = .ok () := hthr 2025 (by decide)
    have h3 : getCal 2024 = .ok [] := hcal 2024 (by decide)
    have h4 : getCal 2025 = .ok [] := hcal 2025 (by decide)
    constructor
    · simp [seedCalendar, seedCalendarLoop, supportedYears, h1, h2, h3, h4]
    · simp [seedCalendar, seedCalendarLoop, supportedYears, h1, h2, h3, h4,
        insertCalendarWeeks]

/-- C7 witness: with both years throttling fine and both fetches yielding
zero drives, SeedDrives performs no load call and returns success. -/
theorem claim_C7_fetch_transform_load_witness :
    (seedDrives (fun _ => .ok ())
      (fun _ => .ok ([] : List Unit))).1.filter isLoadEv = [] ∧
    (seedDrives (fun _ => .ok ()) (fun _ => .ok ([] : List Unit))).2 =
      .ok () :=
  claim_C7_fetch_transform_load.2.2.1 Unit (fun _ => .ok ())
    (fun _ => .ok []) (fun _ _ => rfl) (fun _ _ => rfl)

/-- C7 counterexample: the claim says a task whose fetch yields zero records
returns success immediately without calling the load function; SeedCalendar
with every fetch returning zero records still ends its trace with a load
call carrying a zero-record batch. -/
theorem claim_C7_fetch_transform_load_counterexample :
    (seedCalendar (fun _ => .ok ()) (fun _ => .ok []) []).1 =
      [.throttleWait, .fetchCall "calendar", .throttleWait,
       .fetchCall "calendar", .loadCall "calendar_weeks" 0] ∧
    (seedCalendar (fun _ => .ok ()) (fun _ => .ok []) []).2 = .ok [] := by
  exact ⟨rfl, rfl⟩

end CfbdEtl
